import Mathlib

/-!
# Verification of the Sleeping Beauty viewer's authentication/decryption path

Shallow embedding of `app.js` (the static research viewer): the
password-gated decryption pipeline `decryptData` (PBKDF2-SHA256 key
derivation, AES-256-CBC decryption, CryptoJS-style PKCS7 unpadding, strict
UTF-8 decoding, JSON parsing), the `submitPassword` / `loadLateAwakeningData`
session state machine, and the `renderMechanismChain` lookup.

Bytes are `Nat` values `< 256`; 32-bit words are `Nat` values reduced
`&&& 0xFFFFFFFF`.  CryptoJS's WordArray layer is big-endian, so the byte-level
view used here agrees with it.  Where the embedding needs the behaviour of the
CryptoJS library functions the source calls (`CryptoJS.PBKDF2`,
`CryptoJS.AES.decrypt`, `CryptoJS.pad.Pkcs7`, `CryptoJS.enc.Utf8`), those
algorithms are implemented here in full, following the library's semantics;
note in particular that CryptoJS `Pkcs7.unpad` performs *no* validation of the
padding bytes: it reads the final byte and truncates that many bytes.
-/

set_option maxRecDepth 8192

namespace SBViewer

/-! ## 32-bit word helpers -/

def mask32 : Nat := 0xFFFFFFFF

/-- Rotate a 32-bit word right by `n` bits. -/
def rotr32 (n w : Nat) : Nat := ((w >>> n) ||| (w <<< (32 - n))) &&& mask32

/-- Rotate a 32-bit word left by `n` bits. -/
def rotl32 (n w : Nat) : Nat := ((w <<< n) ||| (w >>> (32 - n))) &&& mask32

/-- Addition modulo 2^32. -/
def add32 (a b : Nat) : Nat := (a + b) % 4294967296

/-- Big-endian conversion of bytes to 32-bit words (length divisible by 4). -/
def bytesToWords : List Nat → List Nat
  | b0 :: b1 :: b2 :: b3 :: rest =>
      ((b0 <<< 24) ||| (b1 <<< 16) ||| (b2 <<< 8) ||| b3) :: bytesToWords rest
  | _ => []

/-- Big-endian conversion of 32-bit words to bytes. -/
def wordsToBytes (ws : List Nat) : List Nat :=
  ws.flatMap fun w => [(w >>> 24) % 256, (w >>> 16) % 256, (w >>> 8) % 256, w % 256]

/-- Split a list into chunks of 64 elements (the SHA block size); the first
argument is fuel, instantiated with the list length. -/
def chunk64F : Nat → List Nat → List (List Nat)
  | 0, _ => []
  | _, [] => []
  | fuel + 1, l => l.take 64 :: chunk64F fuel (l.drop 64)

def chunk64 (l : List Nat) : List (List Nat) := chunk64F l.length l

/-- Merkle–Damgård padding shared by SHA-1 and SHA-256: append `0x80`, zero
bytes to 56 mod 64, then the 64-bit big-endian bit length. -/
def shaPad (msg : List Nat) : List Nat :=
  let n := msg.length
  let bitlen := 8 * n
  msg ++ (0x80 :: List.replicate ((55 + 64 - n % 64) % 64) 0) ++
    [(bitlen >>> 56) % 256, (bitlen >>> 48) % 256, (bitlen >>> 40) % 256,
     (bitlen >>> 32) % 256, (bitlen >>> 24) % 256, (bitlen >>> 16) % 256,
     (bitlen >>> 8) % 256, bitlen % 256]

/-! ## SHA-256 -/

def sha256KN : Nat :=
  25051139735836467913601071899189108501681633092613316132753366958947502841281110980347811086624969305314199562795868290539880502533646505489797110349007385020507326982043050618112420254613810441709594605123090411975756494285771699200369901479195251226368983824020564277645963860728452821576845901498668417244438721537663670541944820957180957595559282976806173113161068298822071065329290006052849814285001949914564097058408480133985233335799884203712730341384999677089997083749077591931498939520449886954646413138343858395935213418018409268340744776361518554939863400075967197509182087778881547827184266701615699472280

/-- Word `t` of a packed word sequence (32-bit words, word `t` at bit offset
`32 * t`). -/
def wordAt (w t : Nat) : Nat := (w >>> (32 * t)) &&& 0xFFFFFFFF

/-- Pack a word list into one natural, word 0 lowest. -/
def packWords (ws : List Nat) : Nat := ws.foldr (fun x acc => x ||| (acc <<< 32)) 0

def sha256Init : List Nat :=
  [1779033703, 3144134277, 1013904242, 2773480762, 1359893119, 2600822924,
   528734635, 1541459225]

/-- Message-schedule extension: extend the 16 packed block words to 64. -/
def sha256Extend (w : Nat) : Nat :=
  (List.range 48).foldl
    (fun w i =>
      let t := i + 16
      let w15 := wordAt w (t - 15)
      let w2 := wordAt w (t - 2)
      let s0 := rotr32 7 w15 ^^^ rotr32 18 w15 ^^^ (w15 >>> 3)
      let s1 := rotr32 17 w2 ^^^ rotr32 19 w2 ^^^ (w2 >>> 10)
      w ||| (((wordAt w (t - 16) + s0 + wordAt w (t - 7) + s1) % 4294967296) <<< (32 * t)))
    w

/-- One SHA-256 round on the 8-register state, fed the combined `K[t] + W[t]`. -/
def sha256Round (kw : Nat) (s : List Nat) : List Nat :=
  match s with
  | [a, b, c, d, e, f, g, h] =>
      let S1 := rotr32 6 e ^^^ rotr32 11 e ^^^ rotr32 25 e
      let ch := (e &&& f) ^^^ ((e ^^^ mask32) &&& g)
      let t1 := (h + S1 + ch + kw) % 4294967296
      let S0 := rotr32 2 a ^^^ rotr32 13 a ^^^ rotr32 22 a
      let mj := (a &&& b) ^^^ (a &&& c) ^^^ (b &&& c)
      let t2 := (S0 + mj) % 4294967296
      [(t1 + t2) % 4294967296, a, b, c, (d + t1) % 4294967296, e, f, g]
  | s => s

/-- SHA-256 compression of one 64-byte block into the running hash state. -/
def sha256Compress (h : List Nat) (block : List Nat) : List Nat :=
  let w := sha256Extend (packWords (bytesToWords block))
  let s := (List.range 64).foldl
    (fun s t => sha256Round ((wordAt sha256KN t + wordAt w t) % 4294967296) s) h
  List.zipWith add32 h s

/-- SHA-256 of a byte list, as a 32-byte list. -/
def sha256 (msg : List Nat) : List Nat :=
  wordsToBytes ((chunk64 (shaPad msg)).foldl sha256Compress sha256Init)

/-! ## SHA-1 (needed to compare against the hasher the config names) -/

def sha1Init : List Nat :=
  [1732584193, 4023233417, 2562383102, 271733878, 3285377520]

def sha1Extend (w : Nat) : Nat :=
  (List.range 64).foldl
    (fun w i =>
      let t := i + 16
      w ||| (rotl32 1 (wordAt w (t - 3) ^^^ wordAt w (t - 8) ^^^
                       wordAt w (t - 14) ^^^ wordAt w (t - 16)) <<< (32 * t)))
    w

def sha1F (t b c d : Nat) : Nat :=
  if t < 20 then (b &&& c) ||| ((b ^^^ mask32) &&& d)
  else if t < 40 then b ^^^ c ^^^ d
  else if t < 60 then (b &&& c) ||| (b &&& d) ||| (c &&& d)
  else b ^^^ c ^^^ d

def sha1KOf (t : Nat) : Nat :=
  if t < 20 then 0x5A827999
  else if t < 40 then 0x6ED9EBA1
  else if t < 60 then 0x8F1BBCDC
  else 0xCA62C1D6

def sha1Round (wt t : Nat) (s : List Nat) : List Nat :=
  match s with
  | [a, b, c, d, e] =>
      let tmp := (rotl32 5 a + sha1F t b c d + e + sha1KOf t + wt) % 4294967296
      [tmp, a, rotl32 30 b, c, d]
  | s => s

def sha1Compress (h : List Nat) (block : List Nat) : List Nat :=
  let w := sha1Extend (packWords (bytesToWords block))
  let s := (List.range 80).foldl (fun s t => sha1Round (wordAt w t) t s) h
  List.zipWith add32 h s

/-- SHA-1 of a byte list, as a 20-byte list. -/
def sha1 (msg : List Nat) : List Nat :=
  wordsToBytes ((chunk64 (shaPad msg)).foldl sha1Compress sha1Init)

/-! ## HMAC and PBKDF2

CryptoJS's `HMAC` hashes keys longer than the 64-byte block size, then
zero-pads.  CryptoJS's `PBKDF2` runs the standard iteration scheme, except
that its inner loop `for (i = 1; i < iterations; i++)` means any iteration
count below one (including a missing `iterations` field, which reads as
`undefined`) behaves as a single iteration. -/

/-- HMAC over an arbitrary hash function with 64-byte block size. -/
def hmacWith (hash : List Nat → List Nat) (key msg : List Nat) : List Nat :=
  let key := if 64 < key.length then hash key else key
  let key := key ++ List.replicate (64 - key.length) 0
  let ipad := key.map (· ^^^ 0x36)
  let opad := key.map (· ^^^ 0x5C)
  hash (opad ++ hash (ipad ++ msg))

/-- 32-bit big-endian block counter. -/
def be32 (n : Nat) : List Nat :=
  [(n >>> 24) % 256, (n >>> 16) % 256, (n >>> 8) % 256, n % 256]

/-- The PBKDF2 `F` block with `iters` total HMAC iterations (`iters ≥ 1`). -/
def pbkdf2Block (hash : List Nat → List Nat) (pw salt : List Nat)
    (j iters : Nat) : List Nat :=
  let u1 := hmacWith hash pw (salt ++ be32 j)
  (List.range (iters - 1)).foldl
    (fun (acc : List Nat × List Nat) _ =>
      let u := hmacWith hash pw acc.2
      (List.zipWith (· ^^^ ·) acc.1 u, u))
    (u1, u1) |>.1

/-- PBKDF2: derive `keyWords` 32-bit words (CryptoJS `keySize`), using `hash`
whose output is `hashWords` words long. -/
def pbkdf2With (hash : List Nat → List Nat) (hashWords : Nat)
    (pw salt : List Nat) (keyWords iters : Nat) : List Nat :=
  let nblocks := (keyWords + hashWords - 1) / hashWords
  let out := (List.range nblocks).foldl
    (fun acc j => acc ++ pbkdf2Block hash pw salt (j + 1) iters) []
  out.take (4 * keyWords)

def pbkdf2Sha256 (pw salt : List Nat) (keyWords iters : Nat) : List Nat :=
  pbkdf2With sha256 8 pw salt keyWords iters

def pbkdf2Sha1 (pw salt : List Nat) (keyWords iters : Nat) : List Nat :=
  pbkdf2With sha1 5 pw salt keyWords iters

/-! ## AES (FIPS-197, as implemented by CryptoJS)

Bytes inside the cipher are `Fin 256`, so every operation carries its range
with it.  The decryption below is the straightforward inverse cipher (inverse
steps in reverse order over the same key schedule); CryptoJS implements the
equivalent-inverse-cipher form of FIPS-197 §5.3.5, which computes the same
function. -/

/-- Cipher-internal byte. -/
abbrev B := Fin 256

def byteOf (n : Nat) : B := ⟨n % 256, Nat.mod_lt _ (by omega)⟩

/-- The AES S-box, packed into one literal: byte `i` sits at bit offset `8*i`. -/
def sboxN : Nat :=
  2869618975290639062594974519597816386035077209210385677284518162336985023502962151465775969507961862820568736543004676439868535775640188584098917533413284844376797297285941524888791401501466624530423689326528054213168201056672989590893583853414110162539122864583953358348775951166211353578440977400428507475679327181038682772945817200201960445064847785221508011893952350688324234443749897213621340677040612747745615276448919507935121141307752692835344166708617454322778699219895865633266409040561742768581056182730443599545881830075941537620590442514083341749674612746994879540562701631131184186066652929592955206755

/-- The inverse S-box, packed the same way. -/
def invSboxN : Nat :=
  15785769749828884342349381641981096363179738000380205650940338083111619982568718420166261191398703005748170232611805704157196303061330872280026969925224128193193768962594508714770967646139604422718174787315048227180018877623049221087186576642191304514338137614235628241783007805847129270530950856841486400764657112140097236091222567730363620332611309375046737430203438830593833719428588466121688739068564421474273450162064709239629809347626728710072303178617319436726577534667237755444692000788692193415136619289353224918429728194544458916874716857284226411602766869706570927007876872095880586785662942963508062062930

def sbox (x : B) : B := byteOf (sboxN >>> (8 * x.val))

def invSbox (x : B) : B := byteOf (invSboxN >>> (8 * x.val))

/-- XOR on cipher bytes. -/
def bXor (a b : B) : B :=
  ⟨a.val ^^^ b.val, Nat.xor_lt_two_pow (n := 8) a.isLt b.isLt⟩

/-- Multiplication by x in GF(2^8) with the AES polynomial 0x11B (on plain
naturals below 256): double, and reduce by 0x11B when bit 7 was set. -/
def xtimeN (x : Nat) : Nat := (2 * x) ^^^ 0x11B * (x >>> 7)

def xtime (x : B) : B := byteOf (xtimeN x.val)

def gm2 (x : B) : B := xtime x
def gm3 (x : B) : B := bXor (xtime x) x
def gm9 (x : B) : B := bXor (xtime (xtime (xtime x))) x
def gm11 (x : B) : B := bXor (bXor (xtime (xtime (xtime x))) (xtime x)) x
def gm13 (x : B) : B := bXor (bXor (xtime (xtime (xtime x))) (xtime (xtime x))) x
def gm14 (x : B) : B :=
  bXor (bXor (xtime (xtime (xtime x))) (xtime (xtime x))) (xtime x)

/-- One column of the AES state (4 bytes). -/
structure Col where
  a : B
  b : B
  c : B
  d : B
deriving DecidableEq

/-- The AES state: 4 columns = 16 bytes in FIPS column-major order. -/
structure Blk where
  c0 : Col
  c1 : Col
  c2 : Col
  c3 : Col
deriving DecidableEq

def colXor (u v : Col) : Col :=
  ⟨bXor u.a v.a, bXor u.b v.b, bXor u.c v.c, bXor u.d v.d⟩

def blkXor (u v : Blk) : Blk :=
  ⟨colXor u.c0 v.c0, colXor u.c1 v.c1, colXor u.c2 v.c2, colXor u.c3 v.c3⟩

def mixCol (v : Col) : Col :=
  ⟨bXor (bXor (gm2 v.a) (gm3 v.b)) (bXor v.c v.d),
   bXor (bXor v.a (gm2 v.b)) (bXor (gm3 v.c) v.d),
   bXor (bXor v.a v.b) (bXor (gm2 v.c) (gm3 v.d)),
   bXor (bXor (gm3 v.a) v.b) (bXor v.c (gm2 v.d))⟩

def invMixCol (v : Col) : Col :=
  ⟨bXor (bXor (gm14 v.a) (gm11 v.b)) (bXor (gm13 v.c) (gm9 v.d)),
   bXor (bXor (gm9 v.a) (gm14 v.b)) (bXor (gm11 v.c) (gm13 v.d)),
   bXor (bXor (gm13 v.a) (gm9 v.b)) (bXor (gm14 v.c) (gm11 v.d)),
   bXor (bXor (gm11 v.a) (gm13 v.b)) (bXor (gm9 v.c) (gm14 v.d))⟩

def mixColumns (s : Blk) : Blk :=
  ⟨mixCol s.c0, mixCol s.c1, mixCol s.c2, mixCol s.c3⟩

def invMixColumns (s : Blk) : Blk :=
  ⟨invMixCol s.c0, invMixCol s.c1, invMixCol s.c2, invMixCol s.c3⟩

def subCol (v : Col) : Col := ⟨sbox v.a, sbox v.b, sbox v.c, sbox v.d⟩

def invSubCol (v : Col) : Col :=
  ⟨invSbox v.a, invSbox v.b, invSbox v.c, invSbox v.d⟩

def subBytes (s : Blk) : Blk := ⟨subCol s.c0, subCol s.c1, subCol s.c2, subCol s.c3⟩

def invSubBytes (s : Blk) : Blk :=
  ⟨invSubCol s.c0, invSubCol s.c1, invSubCol s.c2, invSubCol s.c3⟩

/-- ShiftRows: row `r` of the state rotates left by `r` positions. -/
def shiftRows (s : Blk) : Blk :=
  ⟨⟨s.c0.a, s.c1.b, s.c2.c, s.c3.d⟩,
   ⟨s.c1.a, s.c2.b, s.c3.c, s.c0.d⟩,
   ⟨s.c2.a, s.c3.b, s.c0.c, s.c1.d⟩,
   ⟨s.c3.a, s.c0.b, s.c1.c, s.c2.d⟩⟩

def invShiftRows (s : Blk) : Blk :=
  ⟨⟨s.c0.a, s.c3.b, s.c2.c, s.c1.d⟩,
   ⟨s.c1.a, s.c0.b, s.c3.c, s.c2.d⟩,
   ⟨s.c2.a, s.c1.b, s.c0.c, s.c3.d⟩,
   ⟨s.c3.a, s.c2.b, s.c1.c, s.c0.d⟩⟩

/-! ### Key schedule -/

def rconL : List Nat := [0, 1, 2, 4, 8, 16, 32, 64, 128, 27, 54]

def subWord (w : Nat) : Nat :=
  ((sbox (byteOf (w >>> 24))).val <<< 24) |||
  ((sbox (byteOf ((w >>> 16) % 256))).val <<< 16) |||
  ((sbox (byteOf ((w >>> 8) % 256))).val <<< 8) |||
  (sbox (byteOf (w % 256))).val

def rotWord (w : Nat) : Nat := ((w <<< 8) ||| (w >>> 24)) &&& mask32

/-- CryptoJS-style key expansion: `nk` key words expand to `(nk+6+1)*4`
packed schedule words. -/
def expandKeyN (kw : List Nat) : Nat :=
  let nk := kw.length
  (List.range ((nk + 7) * 4 - nk)).foldl
    (fun w i =>
      let t := i + nk
      let prev := wordAt w (t - 1)
      let tmp :=
        if t % nk = 0 then subWord (rotWord prev) ^^^ (rconL.getD (t / nk) 0 <<< 24)
        else if 6 < nk ∧ t % nk = 4 then subWord prev
        else prev
      w ||| ((wordAt w (t - nk) ^^^ tmp) <<< (32 * t)))
    (packWords kw)

def wordToCol (w : Nat) : Col :=
  ⟨byteOf (w >>> 24), byteOf ((w >>> 16) % 256), byteOf ((w >>> 8) % 256),
   byteOf (w % 256)⟩

/-- The per-round key blocks derived from a byte key. -/
def roundKeys (keyBytes : List Nat) : List Blk :=
  let kw := bytesToWords keyBytes
  if kw.length = 0 then []
  else
    let w := expandKeyN kw
    (List.range (kw.length + 7)).map fun r =>
      ⟨wordToCol (wordAt w (4 * r)), wordToCol (wordAt w (4 * r + 1)),
       wordToCol (wordAt w (4 * r + 2)), wordToCol (wordAt w (4 * r + 3))⟩

/-! ### The block cipher -/

def addKey (k s : Blk) : Blk := blkXor s k

/-- Encryption rounds after the initial AddRoundKey: a full round per key,
except the last key closes with the final (MixColumns-free) round. -/
def aesEncRounds : List Blk → Blk → Blk
  | [], b => b
  | [k], b => addKey k (shiftRows (subBytes b))
  | k :: ks, b => aesEncRounds ks (addKey k (mixColumns (shiftRows (subBytes b))))

def aesEncryptBlock (ks : List Blk) (b : Blk) : Blk :=
  match ks with
  | [] => b
  | k0 :: rest => aesEncRounds rest (addKey k0 b)

/-- Inverse of `aesEncRounds`, consuming the same key list. -/
def aesDecRounds : List Blk → Blk → Blk
  | [], b => b
  | [k], b => invSubBytes (invShiftRows (addKey k b))
  | k :: ks, b => invSubBytes (invShiftRows (invMixColumns (addKey k (aesDecRounds ks b))))

def aesDecryptBlock (ks : List Blk) (b : Blk) : Blk :=
  match ks with
  | [] => b
  | k0 :: rest => addKey k0 (aesDecRounds rest b)

/-! ### CBC mode, byte/block conversions, PKCS7 -/

def cbcEncBlocks (ks : List Blk) : Blk → List Blk → List Blk
  | _, [] => []
  | prev, p :: ps =>
      let c := aesEncryptBlock ks (blkXor p prev)
      c :: cbcEncBlocks ks c ps

def cbcDecBlocks (ks : List Blk) : Blk → List Blk → List Blk
  | _, [] => []
  | prev, c :: cs => blkXor (aesDecryptBlock ks c) prev :: cbcDecBlocks ks c cs

/-- A 16-byte list as a state block (shorter input is zero-extended, as the
CryptoJS word array reads absent words as 0). -/
def blkOfBytes (bs : List Nat) : Blk :=
  ⟨⟨byteOf (bs.getD 0 0), byteOf (bs.getD 1 0), byteOf (bs.getD 2 0), byteOf (bs.getD 3 0)⟩,
   ⟨byteOf (bs.getD 4 0), byteOf (bs.getD 5 0), byteOf (bs.getD 6 0), byteOf (bs.getD 7 0)⟩,
   ⟨byteOf (bs.getD 8 0), byteOf (bs.getD 9 0), byteOf (bs.getD 10 0), byteOf (bs.getD 11 0)⟩,
   ⟨byteOf (bs.getD 12 0), byteOf (bs.getD 13 0), byteOf (bs.getD 14 0), byteOf (bs.getD 15 0)⟩⟩

/-- Bytes to 16-byte state blocks (an incomplete trailing block is dropped,
as CryptoJS only processes whole blocks); the first argument of `toBlocksF`
is fuel, instantiated with the list length. -/
def toBlocksF : Nat → List Nat → List Blk
  | 0, _ => []
  | fuel + 1, l =>
      if l.length < 16 then []
      else blkOfBytes (l.take 16) :: toBlocksF fuel (l.drop 16)

def toBlocks (l : List Nat) : List Blk := toBlocksF l.length l

def colToBytes (v : Col) : List Nat := [v.a.val, v.b.val, v.c.val, v.d.val]

def blkToBytes (b : Blk) : List Nat :=
  colToBytes b.c0 ++ colToBytes b.c1 ++ colToBytes b.c2 ++ colToBytes b.c3

def ofBlocks (bs : List Blk) : List Nat := bs.flatMap blkToBytes

/-- The IV as a state block (its first 16 bytes). -/
def ivBlock (iv : List Nat) : Blk := blkOfBytes iv

/-- PKCS7 padding (as `CryptoJS.pad.Pkcs7.pad`): append `n` copies of `n`,
`1 ≤ n ≤ 16`. -/
def pkcs7Pad (pt : List Nat) : List Nat :=
  let n := 16 - pt.length % 16
  pt ++ List.replicate n n

/-- CryptoJS `Pkcs7.unpad`: read the final byte and truncate that many bytes,
with *no* check that the padding is well formed.  Truncating more than the
length leaves the empty list (in CryptoJS, a negative `sigBytes` reads back as
an empty string). -/
def pkcs7UnpadCJS (pt : List Nat) : List Nat :=
  pt.take (pt.length - pt.getLastD 0)

/-! ## Strict UTF-8 decoding

`decrypted.toString(CryptoJS.enc.Utf8)` is
`decodeURIComponent(escape(...))`, which decodes UTF-8 strictly (overlong
forms, surrogate code points, values beyond U+10FFFF, and truncated sequences
all throw).  `none` models the thrown `URIError`; the result is the list of
code points of the decoded string. -/

def utf8Decode : List Nat → Option (List Nat)
  | [] => some []
  | b0 :: t0 =>
    if b0 < 0x80 then (utf8Decode t0).map (b0 :: ·)
    else if b0 < 0xC2 then none
    else if b0 < 0xE0 then
      match t0 with
      | b1 :: t1 =>
        if 0x80 ≤ b1 ∧ b1 < 0xC0 then
          (utf8Decode t1).map (((b0 - 0xC0) * 64 + (b1 - 0x80)) :: ·)
        else none
      | _ => none
    else if b0 < 0xF0 then
      match t0 with
      | b1 :: b2 :: t2 =>
        let lo1 := if b0 = 0xE0 then 0xA0 else 0x80
        let hi1 := if b0 = 0xED then 0xA0 else 0xC0
        if (lo1 ≤ b1 ∧ b1 < hi1) ∧ (0x80 ≤ b2 ∧ b2 < 0xC0) then
          (utf8Decode t2).map
            (((b0 - 0xE0) * 4096 + (b1 - 0x80) * 64 + (b2 - 0x80)) :: ·)
        else none
      | _ => none
    else if b0 < 0xF5 then
      match t0 with
      | b1 :: b2 :: b3 :: t3 =>
        let lo1 := if b0 = 0xF0 then 0x90 else 0x80
        let hi1 := if b0 = 0xF4 then 0x90 else 0xC0
        if (lo1 ≤ b1 ∧ b1 < hi1) ∧ (0x80 ≤ b2 ∧ b2 < 0xC0) ∧
           (0x80 ≤ b3 ∧ b3 < 0xC0) then
          (utf8Decode t3).map
            (((b0 - 0xF0) * 262144 + (b1 - 0x80) * 4096 + (b2 - 0x80) * 64 +
              (b3 - 0x80)) :: ·)
        else none
      | _ => none
    else none

/-! ## JSON values and `JSON.parse`

`Json` mirrors what `JSON.parse` can return.  Number literals are kept
symbolically (sign, integer digits, fraction digits, exponent) rather than as
IEEE doubles; the only place a numeric value is consulted is JavaScript
truthiness, where a literal whose mantissa digits are all zero is `±0` and
falsy.  (A nonzero literal with an exponent beyond the double range, such as
`1e-400`, rounds to `0` or `Infinity` in JavaScript; no property below
depends on such extremes.)  Strings are lists of code points; a `\uXXXX`
escape contributes its 16-bit value. -/

inductive Json where
  | null
  | bool (b : Bool)
  | num (neg : Bool) (ip : List Nat) (fp : List Nat) (expNeg : Bool) (ep : List Nat)
  | str (s : List Nat)
  | arr (elems : List Json)
  | obj (fields : List (List Nat × Json))

/-- JSON insignificant whitespace: space, tab, line feed, carriage return. -/
def isJsonWs (c : Nat) : Bool := c = 0x20 || c = 0x09 || c = 0x0A || c = 0x0D

def skipWs : List Nat → List Nat
  | c :: rest => if isJsonWs c then skipWs rest else c :: rest
  | [] => []

def isDigitCp (c : Nat) : Bool := 0x30 ≤ c && c ≤ 0x39

/-- Longest leading digit run, returned as digit values plus the rest. -/
def digitRun : List Nat → List Nat × List Nat
  | c :: rest =>
      if isDigitCp c then
        let (ds, r) := digitRun rest
        ((c - 0x30) :: ds, r)
      else ([], c :: rest)
  | [] => ([], [])

def isHexCp (c : Nat) : Bool :=
  isDigitCp c || (0x41 ≤ c && c ≤ 0x46) || (0x61 ≤ c && c ≤ 0x66)

def hexVal (c : Nat) : Nat :=
  if isDigitCp c then c - 0x30
  else if c ≤ 0x46 then c - 0x41 + 10
  else c - 0x61 + 10

/-- Parse the remainder of a JSON string after the opening quote.  Returns
the string's code points and the rest of the input. -/
def parseStringRest : List Nat → Option (List Nat × List Nat)
  | [] => none
  | 0x22 :: r => some ([], r)
  | 0x5C :: 0x75 :: h1 :: h2 :: h3 :: h4 :: r =>
      if isHexCp h1 ∧ isHexCp h2 ∧ isHexCp h3 ∧ isHexCp h4 then
        (parseStringRest r).map fun (cs, r2) =>
          ((((hexVal h1 * 16 + hexVal h2) * 16 + hexVal h3) * 16 + hexVal h4) :: cs, r2)
      else none
  | 0x5C :: e :: r =>
      let esc : Option Nat :=
        if e = 0x22 then some 0x22
        else if e = 0x5C then some 0x5C
        else if e = 0x2F then some 0x2F
        else if e = 0x62 then some 0x08
        else if e = 0x66 then some 0x0C
        else if e = 0x6E then some 0x0A
        else if e = 0x72 then some 0x0D
        else if e = 0x74 then some 0x09
        else none
      match esc with
      | some c => (parseStringRest r).map fun (cs, r2) => (c :: cs, r2)
      | none => none
  | c :: r =>
      if c < 0x20 then none
      else (parseStringRest r).map fun (cs, r2) => (c :: cs, r2)

/-- Parse fraction and exponent parts after the integer digits. -/
def parseFracExp (neg : Bool) (ip : List Nat) (s : List Nat) :
    Option (Json × List Nat) :=
  let fracStep : Option (List Nat × List Nat) :=
    match s with
    | 0x2E :: r =>
        match digitRun r with
        | ([], _) => none
        | (ds, r2) => some (ds, r2)
    | _ => some ([], s)
  match fracStep with
  | none => none
  | some (fp, s1) =>
    match s1 with
    | c :: r =>
        if c = 0x65 ∨ c = 0x45 then
          let (en, r1) :=
            match r with
            | 0x2D :: r2 => (true, r2)
            | 0x2B :: r2 => (false, r2)
            | _ => (false, r)
          match digitRun r1 with
          | ([], _) => none
          | (ep, r2) => some (.num neg ip fp en ep, r2)
        else some (.num neg ip fp false [], c :: r)
    | [] => some (.num neg ip fp false [], [])

/-- Parse a JSON number (the input starts at `-` or a digit, or fails). -/
def parseNumber (s : List Nat) : Option (Json × List Nat) :=
  let (neg, s1) :=
    match s with
    | 0x2D :: r => (true, r)
    | _ => (false, s)
  match s1 with
  | 0x30 :: r => parseFracExp neg [0] r
  | c :: r =>
      if isDigitCp c then
        let (ds, r2) := digitRun r
        parseFracExp neg ((c - 0x30) :: ds) r2
      else none
  | [] => none

mutual

/-- Parse one JSON value (whitespace already skipped by the caller). -/
def parseValue : Nat → List Nat → Option (Json × List Nat)
  | 0, _ => none
  | fuel + 1, s =>
    match s with
    | 0x6E :: 0x75 :: 0x6C :: 0x6C :: r => some (.null, r)
    | 0x74 :: 0x72 :: 0x75 :: 0x65 :: r => some (.bool true, r)
    | 0x66 :: 0x61 :: 0x6C :: 0x73 :: 0x65 :: r => some (.bool false, r)
    | 0x22 :: r => (parseStringRest r).map fun (cs, r2) => (.str cs, r2)
    | 0x5B :: r =>
        match skipWs r with
        | 0x5D :: r2 => some (.arr [], r2)
        | r1 => (parseElems fuel r1).map fun (es, r2) => (.arr es, r2)
    | 0x7B :: r =>
        match skipWs r with
        | 0x7D :: r2 => some (.obj [], r2)
        | r1 => (parseMembers fuel r1).map fun (ms, r2) => (.obj ms, r2)
    | _ => parseNumber s

/-- Parse one or more comma-separated array elements up to `]`. -/
def parseElems : Nat → List Nat → Option (List Json × List Nat)
  | 0, _ => none
  | fuel + 1, s =>
    match parseValue fuel s with
    | none => none
    | some (v, r) =>
      match skipWs r with
      | 0x2C :: r2 => (parseElems fuel (skipWs r2)).map fun (es, r3) => (v :: es, r3)
      | 0x5D :: r2 => some ([v], r2)
      | _ => none

/-- Parse one or more `"key": value` members up to the closing brace. -/
def parseMembers : Nat → List Nat → Option (List (List Nat × Json) × List Nat)
  | 0, _ => none
  | fuel + 1, s =>
    match s with
    | 0x22 :: r =>
      match parseStringRest r with
      | none => none
      | some (k, r1) =>
        match skipWs r1 with
        | 0x3A :: r2 =>
          match parseValue fuel (skipWs r2) with
          | none => none
          | some (v, r3) =>
            match skipWs r3 with
            | 0x2C :: r4 =>
                (parseMembers fuel (skipWs r4)).map fun (ms, r5) => ((k, v) :: ms, r5)
            | 0x7D :: r4 => some ([(k, v)], r4)
            | _ => none
        | _ => none
    | _ => none

end

/-- `JSON.parse` on a list of code points: one value, with surrounding
whitespace, consuming the entire input.  `none` models the thrown
`SyntaxError`. -/
def jsonParse (s : List Nat) : Option Json :=
  match parseValue (s.length + 1) (skipWs s) with
  | some (v, rest) => if skipWs rest = [] then some v else none
  | none => none

/-- JavaScript truthiness of a parsed JSON value (`if (decrypted)`):
`null`, `false`, `±0` and the empty string are falsy. -/
def jsTruthy : Json → Bool
  | .null => false
  | .bool b => b
  | .num _ ip fp _ _ => !(ip.all (· = 0) && fp.all (· = 0))
  | .str s => !s.isEmpty
  | .arr _ => true
  | .obj _ => true

/-! ## The viewer's configuration, envelope and `decryptData`

`Config` mirrors `data/encryption_config.json` (`{keySize, iterations,
hasher}`).  `iterations` is optional to model a malformed config with the
field missing: CryptoJS's PBKDF2 loop `for (i = 1; i < iterations; i++)`
never runs when `iterations` is `undefined`, so a missing count behaves as a
single iteration.  Passwords are the UTF-8 bytes of the entered string
(CryptoJS `Utf8.parse`). -/

structure Config where
  keySize : Nat
  iterations : Option Nat
  hasher : String
deriving DecidableEq

structure Envelope where
  ciphertext : List Nat
  iv : List Nat
  salt : List Nat
deriving DecidableEq

def effIterations (cfg : Config) : Nat := cfg.iterations.getD 1

/-- The key-derivation step of `decryptData` (app.js lines 73-77): CryptoJS
PBKDF2 with `keySize: config.keySize / 32` and `iterations:
config.iterations`.  The hasher is hard-coded in the source as
`hasher: CryptoJS.algo.SHA256`; the `hasher` field of the config is never
read. -/
def deriveKey (password salt : List Nat) (cfg : Config) : List Nat :=
  pbkdf2Sha256 password salt (cfg.keySize / 32) (effIterations cfg)

/-- `decryptData(encrypted, password, config)` (app.js lines 65-93): derive
the key, AES-CBC-decrypt, strip padding CryptoJS-style, decode UTF-8, parse
JSON.  Every failure inside the chain is caught and returned as `null`
(`none`); a parsed value is returned as is, so a JSON `null`/`false`/`0`
comes back as a falsy value, which the callers' truthiness checks treat like
a failure. -/
def decryptData (encrypted : Envelope) (password : List Nat) (cfg : Config) :
    Option Json :=
  let key := deriveKey password encrypted.salt cfg
  let ptPadded :=
    ofBlocks (cbcDecBlocks (roundKeys key) (ivBlock encrypted.iv)
      (toBlocks encrypted.ciphertext))
  let pt := pkcs7UnpadCJS ptPadded
  match utf8Decode pt with
  | none => none
  | some cps => jsonParse cps

/-- Modelled from the spec: the reference encryptor (`convert_data.py`, the
offline "external collaborator" of spec sections 1 and 6) is not part of this
repository.  Per the spec it produces an envelope `{ciphertext, iv, salt}`
consistent with the config: PBKDF2-derived key, block cipher in
block-chaining mode with standard block padding (AES-CBC-PKCS7).  The salt
and IV it draws at random are explicit arguments here. -/
def encryptEnvelope (plaintext password salt iv : List Nat) (cfg : Config) :
    Envelope :=
  let key := deriveKey password salt cfg
  { ciphertext :=
      ofBlocks (cbcEncBlocks (roundKeys key) (ivBlock iv)
        (toBlocks (pkcs7Pad plaintext))),
    iv := iv, salt := salt }

/-- Modelled from the spec: sections 2 and 6 state that key derivation reads
all three encryption parameters - key size, iteration count and hash
algorithm - from the config `{keySize, iterations, hasher}`.  This comparison
definition dispatches on the `hasher` field as the spec describes (with
SHA-256 for the deployed default). -/
def deriveKeySpec (password salt : List Nat) (cfg : Config) : List Nat :=
  if cfg.hasher = "SHA1" then
    pbkdf2Sha1 password salt (cfg.keySize / 32) (effIterations cfg)
  else
    pbkdf2Sha256 password salt (cfg.keySize / 32) (effIterations cfg)

/-! ## The session state machine (`submitPassword`, `loadLateAwakeningData`)

The mutable globals of app.js (`casesData`, `metadata`, `lateAwakeningData`,
`lateAwakeningCases`, `storedPassword`) plus the two password-modal DOM
effects (`#password-error` text, hiding the modal = `unlocked`) form the
state.  A fetch that rejects, or whose body fails `response.json()`, throws
inside the `try` of `submitPassword`; both are modelled as the `Option`
being `none`. -/

def errEmptyPw : String := "Please enter a password"

def errDecrypting : String := "Decrypting..."

def errIncorrect : String := "Incorrect password. Please try again."

def errLoad : String := "Error loading data. Please check the console."

structure AppState where
  casesData : Json
  metadata : Json
  lateAwakeningData : Json
  lateAwakeningCases : Json
  storedPassword : Option (List Nat)
  unlocked : Bool
  errorText : String

def initialState : AppState :=
  { casesData := .arr [], metadata := .arr [], lateAwakeningData := .arr [],
    lateAwakeningCases := .arr [], storedPassword := none, unlocked := false,
    errorText := "" }

/-- The fetches `submitPassword` awaits, in program order: config, envelope,
then (only after a truthy decrypt) metadata. -/
structure FetchOutcome where
  config : Option Config
  envelope : Option Envelope
  metadata : Option Json

/-- One `submitPassword()` call (app.js lines 19-63).  Note the order of
effects in the source: `casesData` and `storedPassword` are assigned *before*
the metadata fetch, so a metadata failure leaves them assigned while the
modal stays up and the generic error is shown. -/
def submitStep (s : AppState) (password : List Nat) (f : FetchOutcome) :
    AppState :=
  if password = [] then { s with errorText := errEmptyPw }
  else
    match f.config with
    | none => { s with errorText := errLoad }
    | some cfg =>
      match f.envelope with
      | none => { s with errorText := errLoad }
      | some env =>
        match decryptData env password cfg with
        | some v =>
          if jsTruthy v then
            match f.metadata with
            | none =>
                { s with casesData := v, storedPassword := some password,
                         errorText := errLoad }
            | some m =>
                { s with casesData := v, storedPassword := some password,
                         metadata := m, unlocked := true,
                         errorText := errDecrypting }
          else { s with errorText := errIncorrect }
        | none => { s with errorText := errIncorrect }

structure LateFetchOutcome where
  summary : Option Json
  config : Option Config
  envelope : Option Envelope

/-- One `loadLateAwakeningData()` call (app.js lines 113-141).  The inner
`try` decrypts `late_awakening_cases.encrypted` with the globally stored
password; with `storedPassword` still `null` the CryptoJS call throws and the
inner `catch` leaves the state unchanged. -/
def loadLateStep (s : AppState) (g : LateFetchOutcome) : AppState :=
  match g.summary with
  | none => s
  | some d =>
    let s2 := { s with lateAwakeningData := d }
    match g.config with
    | none => s2
    | some cfg =>
      match g.envelope with
      | none => s2
      | some env =>
        match s2.storedPassword with
        | none => s2
        | some pw =>
          match decryptData env pw cfg with
          | none => s2
          | some v =>
            if jsTruthy v then { s2 with lateAwakeningCases := v } else s2

inductive Event where
  | submit (password : List Nat) (f : FetchOutcome)
  | loadLate (g : LateFetchOutcome)

def stepEvent (s : AppState) : Event → AppState
  | .submit pw f => submitStep s pw f
  | .loadLate g => loadLateStep s g

/-- The session states reachable from page load by a sequence of submit /
late-load events. -/
def run (evs : List Event) : AppState := evs.foldl stepEvent initialState

/-- Whether a submit event performs a truthy decrypt (the branch that assigns
`casesData` and `storedPassword`). -/
def submitSucceeds (password : List Nat) (f : FetchOutcome) : Bool :=
  !password.isEmpty &&
  match f.config, f.envelope with
  | some cfg, some env =>
    match decryptData env password cfg with
    | some v => jsTruthy v
    | none => false
  | _, _ => false

/-! ## Operation traces of `submitPassword` (for the ordering guarantee)

`submitPassword` is straight-line `await` code; `submitOps` lists its
operations in execution order. -/

inductive Op where
  | opFetchConfig (result : Option Config)
  | opFetchEnvelope (result : Option Envelope)
  | opDecrypt (encrypted : Envelope) (password : List Nat) (cfg : Config)
  | opFetchMetadata (result : Option Json)
  | opSetError (msg : String)
  | opUnlock

def submitOps (password : List Nat) (f : FetchOutcome) : List Op :=
  if password = [] then [.opSetError errEmptyPw]
  else
    .opFetchConfig f.config ::
    match f.config with
    | none => [.opSetError errLoad]
    | some cfg =>
      .opFetchEnvelope f.envelope ::
      match f.envelope with
      | none => [.opSetError errLoad]
      | some env =>
        .opDecrypt env password cfg ::
        match decryptData env password cfg with
        | some v =>
          if jsTruthy v then
            .opFetchMetadata f.metadata ::
            match f.metadata with
            | none => [.opSetError errLoad]
            | some _ => [.opUnlock]
          else [.opSetError errIncorrect]
        | none => [.opSetError errIncorrect]

/-! ## Mechanism-chain rendering (`renderMechanismChain`, app.js 935-1128) -/

def chainExternalEvent : String :=
  "\n            <div class=\"mechanism-chain\">\n                <h4>Awakening Chain</h4>\n                <div class=\"chain-container\">\n                    <div class=\"chain-step external-event\">\n                        <div class=\"step-icon\">1</div>\n                        <div class=\"step-content\">\n                            <div class=\"step-title\">External Event</div>\n                            <div class=\"step-desc\">COVID Second Wave + UK Vaccine Rollout (Feb 2021)</div>\n                        </div>\n                    </div>\n                    <div class=\"chain-arrow\">&#8595;</div>\n                    <div class=\"chain-step\">\n                        <div class=\"step-icon\">2</div>\n                        <div class=\"step-content\">\n                            <div class=\"step-title\">Community Activity Spike</div>\n                            <div class=\"step-desc\">Multiple new posts about COVID/vaccine/shielding</div>\n                        </div>\n                    </div>\n                    <div class=\"chain-arrow\">&#8595;</div>\n                    <div class=\"chain-step\">\n                        <div class=\"step-icon\">3</div>\n                        <div class=\"step-content\">\n                            <div class=\"step-title\">Related Content Browsing</div>\n                            <div class=\"step-desc\">Users browse new COVID posts, platform shows related content</div>\n                        </div>\n                    </div>\n                    <div class=\"chain-arrow\">&#8595;</div>\n                    <div class=\"chain-step discovery\">\n                        <div class=\"step-icon\">4</div>\n                        <div class=\"step-content\">\n                            <div class=\"step-title\">Old Post Discovery</div>\n                            <div class=\"step-desc\">Users find SB post via internal navigation (NOT email)</div>\n                        </div>\n                    </div>\n                    <div class=\"chain-arrow\">&#8595;</div>\n                    <div class=\"chain-step peak\">\n                        <div class=\"step-icon\">5</div>\n                        <div class=\"step-content\">\n                            <div class=\"step-title\">Peak Engagement</div>\n                            <div class=\"step-desc\">New user comments, sharing experiential knowledge</div>\n                        </div>\n                    </div>\n                </div>\n                <div class=\"chain-insight\">\n                    <strong>Key Insight:</strong> Platform email notifications only promote NEW posts (98.2% within 7 days).\n                    Old posts are discovered through internal navigation / related content browsing.\n                </div>\n            </div>\n        "

def chainSeriesContinuation : String :=
  "\n            <div class=\"mechanism-chain\">\n                <h4>Awakening Chain</h4>\n                <div class=\"chain-container\">\n                    <div class=\"chain-step\">\n                        <div class=\"step-icon\">1</div>\n                        <div class=\"step-content\">\n                            <div class=\"step-title\">Original Post Created</div>\n                            <div class=\"step-desc\">Author creates educational content</div>\n                        </div>\n                    </div>\n                    <div class=\"chain-arrow\">&#8595;</div>\n                    <div class=\"chain-step dormancy\">\n                        <div class=\"step-icon\">2</div>\n                        <div class=\"step-content\">\n                            <div class=\"step-title\">Dormancy Period</div>\n                            <div class=\"step-desc\">Post receives minimal attention</div>\n                        </div>\n                    </div>\n                    <div class=\"chain-arrow\">&#8595;</div>\n                    <div class=\"chain-step prince\">\n                        <div class=\"step-icon\">3</div>\n                        <div class=\"step-content\">\n                            <div class=\"step-title\">Follow-up Post (Prince)</div>\n                            <div class=\"step-desc\">Same author publishes continuation/sequel</div>\n                        </div>\n                    </div>\n                    <div class=\"chain-arrow\">&#8595;</div>\n                    <div class=\"chain-step peak\">\n                        <div class=\"step-icon\">4</div>\n                        <div class=\"step-content\">\n                            <div class=\"step-title\">Peak - Discovery</div>\n                            <div class=\"step-desc\">Readers of new post discover original</div>\n                        </div>\n                    </div>\n                </div>\n            </div>\n        "

def chainSelfPromotion : String :=
  "\n            <div class=\"mechanism-chain\">\n                <h4>Awakening Chain</h4>\n                <div class=\"chain-container\">\n                    <div class=\"chain-step\">\n                        <div class=\"step-icon\">1</div>\n                        <div class=\"step-content\">\n                            <div class=\"step-title\">Original Post Created</div>\n                            <div class=\"step-desc\">Author creates educational content</div>\n                        </div>\n                    </div>\n                    <div class=\"chain-arrow\">&#8595;</div>\n                    <div class=\"chain-step dormancy\">\n                        <div class=\"step-icon\">2</div>\n                        <div class=\"step-content\">\n                            <div class=\"step-title\">Dormancy Period</div>\n                            <div class=\"step-desc\">Post receives minimal attention</div>\n                        </div>\n                    </div>\n                    <div class=\"chain-arrow\">&#8595;</div>\n                    <div class=\"chain-step prince\">\n                        <div class=\"step-icon\">3</div>\n                        <div class=\"step-content\">\n                            <div class=\"step-title\">Related Discussion (Prince)</div>\n                            <div class=\"step-desc\">Another user posts on related topic</div>\n                        </div>\n                    </div>\n                    <div class=\"chain-arrow\">&#8595;</div>\n                    <div class=\"chain-step self-promo\">\n                        <div class=\"step-icon\">4</div>\n                        <div class=\"step-content\">\n                            <div class=\"step-title\">Author Comments with Link</div>\n                            <div class=\"step-desc\">Original author replies with link to their post</div>\n                        </div>\n                    </div>\n                    <div class=\"chain-arrow\">&#8595;</div>\n                    <div class=\"chain-step peak\">\n                        <div class=\"step-icon\">5</div>\n                        <div class=\"step-content\">\n                            <div class=\"step-title\">Peak - Referral Traffic</div>\n                            <div class=\"step-desc\">Readers follow link to original post</div>\n                        </div>\n                    </div>\n                </div>\n            </div>\n        "

def chainNewUserDiscovery : String :=
  "\n            <div class=\"mechanism-chain\">\n                <h4>Awakening Chain</h4>\n                <div class=\"chain-container\">\n                    <div class=\"chain-step\">\n                        <div class=\"step-icon\">1</div>\n                        <div class=\"step-content\">\n                            <div class=\"step-title\">Original Post Created</div>\n                            <div class=\"step-desc\">User seeks help/shares experience</div>\n                        </div>\n                    </div>\n                    <div class=\"chain-arrow\">&#8595;</div>\n                    <div class=\"chain-step dormancy\">\n                        <div class=\"step-icon\">2</div>\n                        <div class=\"step-content\">\n                            <div class=\"step-title\">Dormancy Period</div>\n                            <div class=\"step-desc\">Post receives minimal attention</div>\n                        </div>\n                    </div>\n                    <div class=\"chain-arrow\">&#8595;</div>\n                    <div class=\"chain-step discovery\">\n                        <div class=\"step-icon\">3</div>\n                        <div class=\"step-content\">\n                            <div class=\"step-title\">New User Discovers Post</div>\n                            <div class=\"step-desc\">Via search, related posts, or browsing</div>\n                        </div>\n                    </div>\n                    <div class=\"chain-arrow\">&#8595;</div>\n                    <div class=\"chain-step peak\">\n                        <div class=\"step-icon\">4</div>\n                        <div class=\"step-content\">\n                            <div class=\"step-title\">Peak - Re-engagement</div>\n                            <div class=\"step-desc\">New user comments, may trigger original participants</div>\n                        </div>\n                    </div>\n                </div>\n            </div>\n        "

/-- The fields of a case record that `renderMechanismChain` reads:
`c.mechanism || ''` is the label, missing on some records. -/
structure CaseRec where
  mechanism : Option String

/-- JavaScript `String.prototype.includes` on char lists. -/
def hasSubList (pat : List Char) : List Char → Bool
  | [] => pat.isEmpty
  | c :: rest => pat.isPrefixOf (c :: rest) || hasSubList pat rest

def strIncludes (s pat : String) : Bool := hasSubList pat.data s.data

def renderMechanismChain (c : CaseRec) : String :=
  let mechanism := c.mechanism.getD ""
  if strIncludes mechanism "External Event" &&
     strIncludes mechanism "Contextual Discovery" then
    chainExternalEvent
  else if strIncludes mechanism "Author Series Continuation" &&
          !strIncludes mechanism "Possible" then
    chainSeriesContinuation
  else if strIncludes mechanism "Author Self-Promotion" then
    chainSelfPromotion
  else if mechanism == "New User Discovery" then
    chainNewUserDiscovery
  else ""

/-! ## Concrete instances used by the claim checks

`saltC` is an 8-byte salt, `iv0C` a fixed IV.  The configs use the deployed
key size (256 bits) with small iteration counts so the checks stay cheap;
`cfgNoIterC` is the malformed config with the `iterations` field missing. -/

def saltC : List Nat := [115, 97, 108, 116, 115, 97, 108, 116]

def iv0C : List Nat := [0, 1, 2, 3, 4, 5, 6, 7, 8, 9, 10, 11, 12, 13, 14, 15]

def cfg1C : Config := { keySize := 256, iterations := some 1, hasher := "SHA256" }

def cfg2C : Config := { keySize := 256, iterations := some 2, hasher := "SHA256" }

def cfgNoIterC : Config := { keySize := 256, iterations := none, hasher := "SHA256" }

def cfgSha1C : Config := { keySize := 256, iterations := some 1, hasher := "SHA1" }

/-- The password `"pw"` as UTF-8 bytes. -/
def pwBC : List Nat := [112, 119]

/-- `"ASTHMAPOSTS"` (the deployed password) as UTF-8 bytes. -/
def pw1C : List Nat := [65, 83, 84, 72, 77, 65, 80, 79, 83, 84, 83]

/-- `"wrongpass"` as UTF-8 bytes. -/
def pw2C : List Nat := [119, 114, 111, 110, 103, 112, 97, 115, 115]

/-- A 15-byte plaintext (valid UTF-8, so a legitimate encryptor input)
crafted so that its envelope under `pw1C` decrypts to parseable JSON under
`pw2C`. -/
def ptCraftedC : List Nat := [1, 60, 74, 74, 0, 75, 18, 86, 3, 39, 198, 170, 59, 36, 35]

/-- The IV of the crafted envelope. -/
def ivCraftedC : List Nat :=
  [222, 234, 250, 87, 227, 249, 69, 48, 134, 111, 48, 246, 48, 143, 217, 40]

/-- The crafted envelope: the reference encryption of `ptCraftedC` under
password `pw1C`. -/
def envCraftedC : Envelope := encryptEnvelope ptCraftedC pw1C saltC ivCraftedC cfg1C

/-- The JSON number `55555555555555` that the crafted envelope decrypts to
under the wrong password. -/
def numFivesC : Json :=
  Json.num false [5, 5, 5, 5, 5, 5, 5, 5, 5, 5, 5, 5, 5, 5] [] false []

/-- Envelope of the empty plaintext. -/
def envEmptyC : Envelope := encryptEnvelope [] pwBC saltC iv0C cfg1C

/-- Envelope of the one-byte plaintext `"0"` (JSON zero, falsy). -/
def envZeroC : Envelope := encryptEnvelope [0x30] pwBC saltC iv0C cfg1C

/-- The plaintext `[{"rank":1}]` as bytes. -/
def ptRankC : List Nat := [91, 123, 34, 114, 97, 110, 107, 34, 58, 49, 125, 93]

/-- Envelope of `[{"rank":1}]` under the two-iteration config. -/
def envIt2C : Envelope := encryptEnvelope ptRankC pwBC saltC iv0C cfg2C

/-- The parsed value of `[{"rank":1}]`. -/
def rankJsonC : Json :=
  Json.arr [Json.obj [([114, 97, 110, 107], Json.num false [1] [] false [])]]

end SBViewer

namespace SBViewer
theorem invSbox_sbox : ∀ x : B, invSbox (sbox x) = x := by decide

theorem two_mul_xor (a b : Nat) : 2 * (a ^^^ b) = 2 * a ^^^ 2 * b := by
  have h2 : ∀ n : Nat, 2 * n = n <<< 1 := by
    intro n
    rw [Nat.shiftLeft_eq]
    ring
  rw [h2, h2, h2]
  apply Nat.eq_of_testBit_eq
  intro i
  rw [Nat.testBit_xor, Nat.testBit_shiftLeft, Nat.testBit_shiftLeft,
    Nat.testBit_shiftLeft, Nat.testBit_xor, Bool.and_xor_distrib_left]

theorem shiftRight_xor (a b n : Nat) : (a ^^^ b) >>> n = (a >>> n) ^^^ (b >>> n) := by
  apply Nat.eq_of_testBit_eq
  intro i
  simp [Nat.testBit_shiftRight, Nat.testBit_xor]

theorem xor_left_comm3 (a b c : Nat) : a ^^^ (b ^^^ c) = b ^^^ (a ^^^ c) := by
  rw [← Nat.xor_assoc, Nat.xor_comm a b, Nat.xor_assoc]

theorem xtimeN_xor {a b : Nat} (ha : a < 256) (hb : b < 256) :
    xtimeN (a ^^^ b) = xtimeN a ^^^ xtimeN b := by
  unfold xtimeN
  rw [two_mul_xor, shiftRight_xor]
  have hsa : a >>> 7 = 0 ∨ a >>> 7 = 1 := by
    rw [Nat.shiftRight_eq_div_pow]
    omega
  have hsb : b >>> 7 = 0 ∨ b >>> 7 = 1 := by
    rw [Nat.shiftRight_eq_div_pow]
    omega
  rcases hsa with h1 | h1 <;> rcases hsb with h2 | h2 <;>
    simp [h1, h2, Nat.xor_assoc, Nat.xor_comm, xor_left_comm3, Nat.xor_self,
      Nat.xor_zero, Nat.zero_xor]

theorem xtimeN_boundTable :
    ((List.range 256).all fun a => decide (xtimeN a < 256)) = true := by rfl

theorem xtimeN_lt {a : Nat} (ha : a < 256) : xtimeN a < 256 :=
  of_decide_eq_true
    (List.all_eq_true.mp xtimeN_boundTable a (List.mem_range.mpr ha))

theorem xtime_bXor (x y : B) : xtime (bXor x y) = bXor (xtime x) (xtime y) := by
  apply Fin.ext
  have hxy : x.val ^^^ y.val < 256 := Nat.xor_lt_two_pow (n := 8) x.isLt y.isLt
  show xtimeN (x.val ^^^ y.val) % 256 = (xtimeN x.val % 256) ^^^ (xtimeN y.val % 256)
  rw [Nat.mod_eq_of_lt (xtimeN_lt hxy), Nat.mod_eq_of_lt (xtimeN_lt x.isLt),
      Nat.mod_eq_of_lt (xtimeN_lt y.isLt)]
  exact xtimeN_xor x.isLt y.isLt

/-! ### XOR algebra on cipher bytes -/

theorem bXor_comm (x y : B) : bXor x y = bXor y x := by
  apply Fin.ext
  exact Nat.xor_comm x.val y.val

theorem bXor_assoc (x y z : B) : bXor (bXor x y) z = bXor x (bXor y z) := by
  apply Fin.ext
  exact Nat.xor_assoc x.val y.val z.val

theorem bXor_left_comm (x y z : B) : bXor x (bXor y z) = bXor y (bXor x z) := by
  apply Fin.ext
  exact xor_left_comm3 x.val y.val z.val

theorem bXor_zero : ∀ x : B, bXor x 0 = x := by decide

theorem zero_bXor : ∀ x : B, bXor 0 x = x := by decide

theorem bXor_self : ∀ x : B, bXor x x = 0 := by decide

theorem bXor_cancel_right (x k : B) : bXor (bXor x k) k = x := by
  rw [bXor_assoc, bXor_self, bXor_zero]

/-! ### Linearity of the GF(2^8) multipliers -/

theorem gm2_bXor (x y : B) : gm2 (bXor x y) = bXor (gm2 x) (gm2 y) :=
  xtime_bXor x y

theorem gm3_bXor (x y : B) : gm3 (bXor x y) = bXor (gm3 x) (gm3 y) := by
  unfold gm3
  rw [xtime_bXor]
  simp [bXor_assoc, bXor_comm, bXor_left_comm]

theorem gm9_bXor (x y : B) : gm9 (bXor x y) = bXor (gm9 x) (gm9 y) := by
  unfold gm9
  rw [xtime_bXor, xtime_bXor, xtime_bXor]
  simp [bXor_assoc, bXor_comm, bXor_left_comm]

theorem gm11_bXor (x y : B) : gm11 (bXor x y) = bXor (gm11 x) (gm11 y) := by
  unfold gm11
  rw [xtime_bXor, xtime_bXor, xtime_bXor]
  simp [bXor_assoc, bXor_comm, bXor_left_comm]

theorem gm13_bXor (x y : B) : gm13 (bXor x y) = bXor (gm13 x) (gm13 y) := by
  unfold gm13
  rw [xtime_bXor, xtime_bXor, xtime_bXor]
  simp [bXor_assoc, bXor_comm, bXor_left_comm]

theorem gm14_bXor (x y : B) : gm14 (bXor x y) = bXor (gm14 x) (gm14 y) := by
  unfold gm14
  rw [xtime_bXor, xtime_bXor, xtime_bXor]
  simp [bXor_assoc, bXor_comm, bXor_left_comm]

/-! ### MixColumns is inverted by InvMixColumns -/

theorem invMixCol_mixCol_ea : ∀ a : B, invMixCol (mixCol ⟨a, 0, 0, 0⟩) = ⟨a, 0, 0, 0⟩ := by
  decide

theorem invMixCol_mixCol_eb : ∀ b : B, invMixCol (mixCol ⟨0, b, 0, 0⟩) = ⟨0, b, 0, 0⟩ := by
  decide

theorem invMixCol_mixCol_ec : ∀ c : B, invMixCol (mixCol ⟨0, 0, c, 0⟩) = ⟨0, 0, c, 0⟩ := by
  decide

theorem invMixCol_mixCol_ed : ∀ d : B, invMixCol (mixCol ⟨0, 0, 0, d⟩) = ⟨0, 0, 0, d⟩ := by
  decide

theorem mixCol_colXor (u v : Col) : mixCol (colXor u v) = colXor (mixCol u) (mixCol v) := by
  cases u
  cases v
  simp only [mixCol, colXor, gm2_bXor, gm3_bXor]
  simp [Col.mk.injEq, bXor_assoc, bXor_comm, bXor_left_comm]

theorem invMixCol_colXor (u v : Col) :
    invMixCol (colXor u v) = colXor (invMixCol u) (invMixCol v) := by
  cases u
  cases v
  simp only [invMixCol, colXor, gm9_bXor, gm11_bXor, gm13_bXor, gm14_bXor]
  simp [Col.mk.injEq, bXor_assoc, bXor_comm, bXor_left_comm]

theorem col_decompose (v : Col) :
    v = colXor ⟨v.a, 0, 0, 0⟩
          (colXor ⟨0, v.b, 0, 0⟩ (colXor ⟨0, 0, v.c, 0⟩ ⟨0, 0, 0, v.d⟩)) := by
  cases v
  simp [colXor, Col.mk.injEq, bXor_zero, zero_bXor]

theorem invMixCol_mixCol (v : Col) : invMixCol (mixCol v) = v := by
  conv_lhs => rw [col_decompose v]
  rw [mixCol_colXor, mixCol_colXor, mixCol_colXor,
      invMixCol_colXor, invMixCol_colXor, invMixCol_colXor,
      invMixCol_mixCol_ea, invMixCol_mixCol_eb, invMixCol_mixCol_ec,
      invMixCol_mixCol_ed]
  exact (col_decompose v).symm

/-! ### The block transformations invert each other -/

theorem byteOf_val (x : B) : byteOf x.val = x := by
  apply Fin.ext
  exact Nat.mod_eq_of_lt x.isLt

theorem invSub_sub (s : Blk) : invSubBytes (subBytes s) = s := by
  obtain ⟨⟨a0, a1, a2, a3⟩, ⟨a4, a5, a6, a7⟩, ⟨a8, a9, a10, a11⟩,
    ⟨a12, a13, a14, a15⟩⟩ := s
  simp [subBytes, invSubBytes, subCol, invSubCol, invSbox_sbox]

theorem invShift_shift (s : Blk) : invShiftRows (shiftRows s) = s := by
  obtain ⟨⟨a0, a1, a2, a3⟩, ⟨a4, a5, a6, a7⟩, ⟨a8, a9, a10, a11⟩,
    ⟨a12, a13, a14, a15⟩⟩ := s
  rfl

theorem colXor_cancel (p q : Col) : colXor (colXor p q) q = p := by
  cases p
  cases q
  simp [colXor, bXor_cancel_right]

theorem blkXor_cancel (p q : Blk) : blkXor (blkXor p q) q = p := by
  cases p
  cases q
  simp [blkXor, colXor_cancel]

theorem addKey_addKey (k s : Blk) : addKey k (addKey k s) = s :=
  blkXor_cancel s k

theorem invMix_mix (s : Blk) : invMixColumns (mixColumns s) = s := by
  cases s
  simp [mixColumns, invMixColumns, invMixCol_mixCol]

theorem aesDecRounds_aesEncRounds (ks : List Blk) :
    ∀ b : Blk, aesDecRounds ks (aesEncRounds ks b) = b := by
  induction ks with
  | nil => intro b; rfl
  | cons k ks ih =>
    intro b
    cases ks with
    | nil =>
      simp only [aesEncRounds, aesDecRounds]
      rw [addKey_addKey, invShift_shift, invSub_sub]
    | cons k2 ks2 =>
      simp only [aesEncRounds, aesDecRounds]
      rw [ih, addKey_addKey, invMix_mix, invShift_shift, invSub_sub]

theorem aesDecryptBlock_aesEncryptBlock (ks : List Blk) (b : Blk) :
    aesDecryptBlock ks (aesEncryptBlock ks b) = b := by
  cases ks with
  | nil => rfl
  | cons k0 rest =>
    simp only [aesEncryptBlock, aesDecryptBlock]
    rw [aesDecRounds_aesEncRounds, addKey_addKey]

theorem cbcDec_cbcEnc (ks : List Blk) :
    ∀ (ps : List Blk) (prev : Blk),
      cbcDecBlocks ks prev (cbcEncBlocks ks prev ps) = ps := by
  intro ps
  induction ps with
  | nil => intro prev; rfl
  | cons p ps ih =>
    intro prev
    simp only [cbcEncBlocks, cbcDecBlocks]
    rw [aesDecryptBlock_aesEncryptBlock, blkXor_cancel, ih]

/-! ### Byte/block conversion round trips -/

theorem blkToBytes_length (b : Blk) : (blkToBytes b).length = 16 := by
  obtain ⟨⟨a0, a1, a2, a3⟩, ⟨a4, a5, a6, a7⟩, ⟨a8, a9, a10, a11⟩,
    ⟨a12, a13, a14, a15⟩⟩ := b
  rfl

theorem blkOfBytes_blkToBytes (b : Blk) : blkOfBytes (blkToBytes b) = b := by
  obtain ⟨⟨a0, a1, a2, a3⟩, ⟨a4, a5, a6, a7⟩, ⟨a8, a9, a10, a11⟩,
    ⟨a12, a13, a14, a15⟩⟩ := b
  simp [blkOfBytes, blkToBytes, colToBytes, byteOf_val]

theorem toBlocksF_ofBlocks : ∀ (bs : List Blk) (fuel : Nat),
    (ofBlocks bs).length ≤ fuel → toBlocksF fuel (ofBlocks bs) = bs := by
  intro bs
  induction bs with
  | nil =>
    intro fuel h
    cases fuel with
    | zero => rfl
    | succ f => simp [ofBlocks, toBlocksF]
  | cons b bs ih =>
    intro fuel h
    have hb16 := blkToBytes_length b
    have hlen : (ofBlocks (b :: bs)).length = 16 + (ofBlocks bs).length := by
      simp [ofBlocks, hb16]
    cases fuel with
    | zero => omega
    | succ f =>
      rw [toBlocksF, if_neg (by omega)]
      have hsplit : ofBlocks (b :: bs) = blkToBytes b ++ ofBlocks bs := by
        simp [ofBlocks]
      rw [hsplit, show (16 = (blkToBytes b).length) from hb16.symm,
        List.take_left, List.drop_left, blkOfBytes_blkToBytes,
        ih f (by omega)]

theorem toBlocks_ofBlocks (bs : List Blk) : toBlocks (ofBlocks bs) = bs :=
  toBlocksF_ofBlocks bs _ (Nat.le_refl _)

theorem blkToBytes_blkOfBytes (bs : List Nat) (hlen : bs.length = 16)
    (hb : ∀ x ∈ bs, x < 256) : blkToBytes (blkOfBytes bs) = bs := by
  apply List.ext_getElem
  · simp [blkToBytes, blkOfBytes, colToBytes, hlen]
  · intro i h1 h2
    rw [hlen] at h2
    have key : ∀ k : Nat, (hk : k < bs.length) →
        (byteOf (bs[k]?.getD 0)).val = bs[k] := by
      intro k hk
      rw [List.getElem?_eq_getElem hk]
      simp only [Option.getD_some, byteOf]
      exact Nat.mod_eq_of_lt (hb _ (List.getElem_mem hk))
    interval_cases i <;> simp [blkToBytes, blkOfBytes, colToBytes] <;>
      exact key _ (by omega)

theorem ofBlocks_toBlocksF : ∀ (fuel : Nat) (l : List Nat), l.length ≤ fuel →
    16 ∣ l.length → (∀ x ∈ l, x < 256) → ofBlocks (toBlocksF fuel l) = l := by
  intro fuel
  induction fuel with
  | zero =>
    intro l hf h16 hb
    rw [List.eq_nil_of_length_eq_zero (by omega : l.length = 0)]
    rfl
  | succ f ih =>
    intro l hf h16 hb
    rw [toBlocksF]
    split
    · rename_i h
      rw [List.eq_nil_of_length_eq_zero (by omega : l.length = 0)]
      rfl
    · rename_i h
      rw [ofBlocks, List.flatMap_cons]
      show blkToBytes (blkOfBytes (l.take 16)) ++ ofBlocks (toBlocksF f (l.drop 16)) = l
      rw [ih (l.drop 16) (by simp only [List.length_drop]; omega)
            (by simp only [List.length_drop]; omega)
            (fun x hx => hb x (List.mem_of_mem_drop hx))]
      rw [blkToBytes_blkOfBytes (l.take 16)
        (by simp only [List.length_take]; omega)
        (fun x hx => hb x (List.mem_of_mem_take hx))]
      exact List.take_append_drop 16 l

theorem ofBlocks_toBlocks (l : List Nat) (h16 : 16 ∣ l.length)
    (hb : ∀ x ∈ l, x < 256) : ofBlocks (toBlocks l) = l :=
  ofBlocks_toBlocksF l.length l (Nat.le_refl _) h16 hb

/-! ### PKCS7 padding round trip (with the CryptoJS unpad) -/

theorem pkcs7UnpadCJS_pad (pt : List Nat) : pkcs7UnpadCJS (pkcs7Pad pt) = pt := by
  unfold pkcs7Pad pkcs7UnpadCJS
  have hn : 1 ≤ 16 - pt.length % 16 ∧ 16 - pt.length % 16 ≤ 16 := by omega
  set n := 16 - pt.length % 16 with hdef
  have hrep : List.replicate n n = List.replicate (n - 1) n ++ [n] := by
    have h1 : List.replicate n n = List.replicate ((n - 1) + 1) n := by
      congr 1
      omega
    rw [h1, List.replicate_succ']
  have hlast : (pt ++ List.replicate n n).getLastD 0 = n := by
    rw [hrep, ← List.append_assoc]
    rw [List.getLastD_concat]
  rw [hlast]
  have hlen : (pt ++ List.replicate n n).length = pt.length + n := by simp
  rw [hlen]
  have : pt.length + n - n = pt.length := by omega
  rw [this]
  rw [List.take_left]

theorem pkcs7Pad_length (pt : List Nat) : 16 ∣ (pkcs7Pad pt).length := by
  unfold pkcs7Pad
  simp only [List.length_append, List.length_replicate]
  omega

theorem pkcs7Pad_bound (pt : List Nat) (hb : ∀ x ∈ pt, x < 256) :
    ∀ x ∈ pkcs7Pad pt, x < 256 := by
  intro x hx
  unfold pkcs7Pad at hx
  rcases List.mem_append.mp hx with h | h
  · exact hb x h
  · have := List.eq_of_mem_replicate h
    omega

/-! ### The decrypt-of-encrypt pipeline -/

/-- Decrypting an envelope produced by the reference encryptor with the same
password and config recovers the plaintext bytes exactly, so `decryptData`
returns whatever the plaintext UTF-8-decodes and JSON-parses to. -/
theorem decryptData_encryptEnvelope (pt pw salt iv : List Nat) (cfg : Config)
    (hb : ∀ x ∈ pt, x < 256) :
    decryptData (encryptEnvelope pt pw salt iv cfg) pw cfg =
      match utf8Decode pt with
      | none => none
      | some cps => jsonParse cps := by
  unfold decryptData encryptEnvelope
  simp only
  rw [toBlocks_ofBlocks, cbcDec_cbcEnc,
    ofBlocks_toBlocks _ (pkcs7Pad_length pt) (pkcs7Pad_bound pt hb),
    pkcs7UnpadCJS_pad]

end SBViewer


namespace SBViewer

/-! ## Helper lemmas about the submit and late-load steps -/

theorem submitStep_success (s : AppState) (pw : List Nat) (f : FetchOutcome)
    (cfg : Config) (env : Envelope) (v m : Json) (hpw : pw ≠ [])
    (hc : f.config = some cfg) (he : f.envelope = some env)
    (hd : decryptData env pw cfg = some v) (ht : jsTruthy v = true)
    (hm : f.metadata = some m) :
    submitStep s pw f =
      { s with casesData := v, storedPassword := some pw, metadata := m,
               unlocked := true, errorText := errDecrypting } := by
  simp [submitStep, hpw, hc, he, hd, ht, hm]

theorem submitStep_decryptFail (s : AppState) (pw : List Nat) (f : FetchOutcome)
    (cfg : Config) (env : Envelope) (hpw : pw ≠ [])
    (hc : f.config = some cfg) (he : f.envelope = some env)
    (hd : decryptData env pw cfg = none) :
    submitStep s pw f = { s with errorText := errIncorrect } := by
  simp [submitStep, hpw, hc, he, hd]

theorem submitStep_falsy (s : AppState) (pw : List Nat) (f : FetchOutcome)
    (cfg : Config) (env : Envelope) (v : Json) (hpw : pw ≠ [])
    (hc : f.config = some cfg) (he : f.envelope = some env)
    (hd : decryptData env pw cfg = some v) (ht : jsTruthy v = false) :
    submitStep s pw f = { s with errorText := errIncorrect } := by
  simp [submitStep, hpw, hc, he, hd, ht]

/-- Any decryption of an empty ciphertext fails: the empty plaintext is the
empty string, which is not JSON. -/
theorem decryptData_emptyCiphertext (iv salt pw : List Nat) (cfg : Config) :
    decryptData ⟨[], iv, salt⟩ pw cfg = none := rfl

/-! ## Shared concrete evaluations -/

theorem crafted_decrypt_wrongPw : decryptData envCraftedC pw2C cfg1C = some numFivesC := by
  rfl

theorem envEmpty_decrypt : decryptData envEmptyC pwBC cfg1C = none := by rfl

theorem envZero_decrypt :
    decryptData envZeroC pwBC cfg1C = some (Json.num false [0] [] false []) := by rfl

theorem envIt2_noIter_decrypt : decryptData envIt2C pwBC cfgNoIterC = none := by rfl

theorem envIt2_decrypt : decryptData envIt2C pwBC cfg2C = some rankJsonC := by rfl

theorem deriveKey_sha1_config_differs :
    deriveKey pwBC saltC cfgSha1C ≠ deriveKeySpec pwBC saltC cfgSha1C := by decide
end SBViewer

namespace SBViewer

/-! ## The claims -/

/-- C1, counterexample.  The claim states that decrypting an envelope with a
password other than the one it was encrypted under always returns null and is
never reported as success.  This exhibits an envelope that is the reference
encryption of the UTF-8 plaintext `ptCraftedC` under the password
`"ASTHMAPOSTS"`, yet decrypting it with the different password `"wrongpass"`
yields the parseable, truthy JSON number `55555555555555` (CryptoJS checks no
authentication tag and does not even validate the PKCS7 padding), and
`submitPassword` unlocks the session and assigns `casesData`. -/
theorem claim1_counterexample :
    pw2C ≠ pw1C ∧
    (utf8Decode ptCraftedC).isSome = true ∧
    decryptData (encryptEnvelope ptCraftedC pw1C saltC ivCraftedC cfg1C) pw2C cfg1C =
      some numFivesC ∧
    jsTruthy numFivesC = true ∧
    (submitStep initialState pw2C
      ⟨some cfg1C, some (encryptEnvelope ptCraftedC pw1C saltC ivCraftedC cfg1C),
       some (Json.arr [])⟩).unlocked = true ∧
    (submitStep initialState pw2C
      ⟨some cfg1C, some (encryptEnvelope ptCraftedC pw1C saltC ivCraftedC cfg1C),
       some (Json.arr [])⟩).casesData = numFivesC := by
  refine ⟨by decide, by rfl, crafted_decrypt_wrongPw, rfl, ?_, ?_⟩ <;>
    rw [submitStep_success initialState pw2C _ cfg1C envCraftedC numFivesC
      (Json.arr []) (by decide) rfl rfl crafted_decrypt_wrongPw rfl rfl]

/-- C1 (amended): decrypting with a password other than the one the envelope
was encrypted under returns null unless the garbage plaintext happens to
decode as UTF-8 and parse as JSON (a false positive the design knowingly
accepts); whenever `decryptData` returns null, `submitPassword` reports
'Incorrect password. Please try again.' and neither unlocks the session nor
assigns `casesData` or `storedPassword`. -/
theorem claim1 (s : AppState) (pw : List Nat) (f : FetchOutcome)
    (cfg : Config) (env : Envelope) (hpw : pw ≠ [])
    (hc : f.config = some cfg) (he : f.envelope = some env)
    (hd : decryptData env pw cfg = none) :
    submitStep s pw f = { s with errorText := errIncorrect } :=
  submitStep_decryptFail s pw f cfg env hpw hc he hd

theorem claim1_witness :
    pwBC ≠ [] ∧
    decryptData ⟨[], [], []⟩ pwBC cfg1C = none ∧
    submitStep initialState pwBC ⟨some cfg1C, some ⟨[], [], []⟩, none⟩ =
      { initialState with errorText := errIncorrect } :=
  ⟨by decide, rfl,
   claim1 initialState pwBC ⟨some cfg1C, some ⟨[], [], []⟩, none⟩ cfg1C
     ⟨[], [], []⟩ (by decide) rfl rfl rfl⟩

/-- C2, counterexample.  The claim states that key derivation uses all three
config parameters, in particular that for every value of the `hasher` field
the key is derived with that hash algorithm.  For a config naming SHA1, the
key the code derives (hard-coded `CryptoJS.algo.SHA256`, app.js line 76)
differs from the PBKDF2-SHA1 key that the config prescribes. -/
theorem claim2_counterexample :
    cfgSha1C.hasher = "SHA1" ∧
    deriveKey pwBC saltC cfgSha1C ≠ deriveKeySpec pwBC saltC cfgSha1C :=
  ⟨rfl, deriveKey_sha1_config_differs⟩

/-- C2 (amended): key derivation uses the key size and iteration count from
the config, but the hash algorithm is hard-coded to SHA-256; the config's
`hasher` field is never read, so changing it never changes the derived key. -/
theorem claim2 (pw salt : List Nat) (cfg : Config) (h : String) :
    deriveKey pw salt cfg =
      pbkdf2Sha256 pw salt (cfg.keySize / 32) (effIterations cfg) ∧
    deriveKey pw salt { cfg with hasher := h } = deriveKey pw salt cfg :=
  ⟨rfl, rfl⟩

/-- C5, counterexample.  The claim includes the empty string among the
plaintexts recovered by the round trip, but the viewer's `decryptData`
returns `JSON.parse` of the plaintext, and the empty string does not parse:
decrypting the envelope of the empty plaintext with the correct password
returns null, recovering nothing. -/
theorem claim5_counterexample :
    utf8Decode ([] : List Nat) = some [] ∧
    jsonParse ([] : List Nat) = none ∧
    decryptData (encryptEnvelope [] pwBC saltC iv0C cfg1C) pwBC cfg1C = none :=
  ⟨rfl, rfl, envEmpty_decrypt⟩

/-- C5 (amended): for every UTF-8 plaintext (including the empty string) and
every password, decrypting the envelope the reference encryptor produces with
the same password recovers the plaintext bytes exactly, so `decryptData`
returns precisely what the plaintext parses to as JSON: the parsed value when
it is valid JSON, and null (not the plaintext) otherwise — in particular for
the empty string. -/
theorem claim5 (pt cps pw salt iv : List Nat) (cfg : Config)
    (hb : ∀ x ∈ pt, x < 256) (hdec : utf8Decode pt = some cps) :
    decryptData (encryptEnvelope pt pw salt iv cfg) pw cfg = jsonParse cps := by
  rw [decryptData_encryptEnvelope pt pw salt iv cfg hb, hdec]

theorem claim5_witness :
    (∀ x ∈ ptRankC, x < 256) ∧
    utf8Decode ptRankC = some ptRankC ∧
    decryptData (encryptEnvelope ptRankC pwBC saltC iv0C cfg2C) pwBC cfg2C =
      jsonParse ptRankC ∧
    jsonParse ptRankC = some rankJsonC :=
  ⟨by decide, rfl,
   claim5 ptRankC ptRankC pwBC saltC iv0C cfg2C (by decide) rfl, by rfl⟩

/-- C6, counterexample.  The claim states that a malformed config (missing
`keySize` or `iterations`) fails as a fatal configuration error distinct from
an authentication failure.  In fact the catch-all inside `decryptData`
swallows every failure: submitting the correct password for a genuinely
decryptable envelope against a config whose `iterations` field is missing is
reported with the authentication-failure message 'Incorrect password. Please
try again.', indistinguishable from a wrong password. -/
theorem claim6_counterexample :
    cfgNoIterC.iterations = none ∧
    decryptData envIt2C pwBC cfg2C = some rankJsonC ∧
    decryptData envIt2C pwBC cfgNoIterC = none ∧
    (submitStep initialState pwBC ⟨some cfgNoIterC, some envIt2C, none⟩).errorText =
      errIncorrect :=
  ⟨rfl, envIt2_decrypt, envIt2_noIter_decrypt, by
    rw [submitStep_decryptFail initialState pwBC _ cfgNoIterC envIt2C (by decide)
      rfl rfl envIt2_noIter_decrypt]⟩

/-- C6 (amended): the key deriver itself raises no error on a malformed
config — a missing `iterations` field behaves exactly like a single
iteration — and a decryption failure caused by such a config is surfaced as
'Incorrect password. Please try again.', not as a distinct fatal
configuration error. -/
theorem claim6 (pw salt : List Nat) (cfg : Config) (s : AppState)
    (f : FetchOutcome) (env : Envelope) (hi : cfg.iterations = none)
    (hpw : pw ≠ []) (hc : f.config = some cfg) (he : f.envelope = some env)
    (hd : decryptData env pw cfg = none) :
    deriveKey pw salt cfg = deriveKey pw salt { cfg with iterations := some 1 } ∧
    submitStep s pw f = { s with errorText := errIncorrect } := by
  refine ⟨?_, submitStep_decryptFail s pw f cfg env hpw hc he hd⟩
  simp [deriveKey, effIterations, hi]

theorem claim6_witness :
    cfgNoIterC.iterations = none ∧
    pwBC ≠ [] ∧
    decryptData envIt2C pwBC cfgNoIterC = none ∧
    (deriveKey pwBC saltC cfgNoIterC =
        deriveKey pwBC saltC { cfgNoIterC with iterations := some 1 } ∧
      submitStep initialState pwBC ⟨some cfgNoIterC, some envIt2C, none⟩ =
        { initialState with errorText := errIncorrect }) :=
  ⟨rfl, by decide, envIt2_noIter_decrypt,
   claim6 pwBC saltC cfgNoIterC initialState
     ⟨some cfgNoIterC, some envIt2C, none⟩ envIt2C rfl (by decide) rfl rfl
     envIt2_noIter_decrypt⟩

/-- C9: when decryption and decoding succeed but the plaintext parses to a
falsy JSON value (null, false, 0 or the empty string), `submitPassword`
reports 'Incorrect password. Please try again.' and leaves every state
component — in particular `casesData` and `storedPassword` — unchanged,
exactly as for a failed decryption. -/
theorem claim9 (s : AppState) (pw : List Nat) (f : FetchOutcome)
    (cfg : Config) (env : Envelope) (v : Json) (hpw : pw ≠ [])
    (hc : f.config = some cfg) (he : f.envelope = some env)
    (hd : decryptData env pw cfg = some v) (ht : jsTruthy v = false) :
    submitStep s pw f = { s with errorText := errIncorrect } :=
  submitStep_falsy s pw f cfg env v hpw hc he hd ht

theorem claim9_witness :
    decryptData envZeroC pwBC cfg1C = some (Json.num false [0] [] false []) ∧
    jsTruthy (Json.num false [0] [] false []) = false ∧
    submitStep initialState pwBC ⟨some cfg1C, some envZeroC, none⟩ =
      { initialState with errorText := errIncorrect } :=
  ⟨envZero_decrypt, rfl,
   claim9 initialState pwBC ⟨some cfg1C, some envZeroC, none⟩ cfg1C envZeroC
     (Json.num false [0] [] false []) (by decide) rfl rfl envZero_decrypt rfl⟩
end SBViewer

namespace SBViewer

/-- C3: for every submit attempt with a nonempty password, a network/fetch
failure while reading the config, the envelope or the metadata is reported
with the generic message 'Error loading data. Please check the console.',
while a decrypt/decode/parse failure (`decryptData` returning null) is
reported uniformly as 'Incorrect password. Please try again.' — with no
distinction between a genuinely wrong password and a corrupted envelope,
since the message depends only on `decryptData`'s result being null. -/
theorem claim3 (s : AppState) (pw : List Nat) (f : FetchOutcome) (hpw : pw ≠ []) :
    (f.config = none → (submitStep s pw f).errorText = errLoad) ∧
    (∀ cfg, f.config = some cfg → f.envelope = none →
      (submitStep s pw f).errorText = errLoad) ∧
    (∀ cfg env v, f.config = some cfg → f.envelope = some env →
      decryptData env pw cfg = some v → jsTruthy v = true → f.metadata = none →
      (submitStep s pw f).errorText = errLoad) ∧
    (∀ cfg env, f.config = some cfg → f.envelope = some env →
      decryptData env pw cfg = none →
      (submitStep s pw f).errorText = errIncorrect) := by
  refine ⟨fun hc => ?_, fun cfg hc he => ?_,
    fun cfg env v hc he hd ht hm => ?_, fun cfg env hc he hd => ?_⟩
  · simp [submitStep, hpw, hc]
  · simp [submitStep, hpw, hc, he]
  · simp [submitStep, hpw, hc, he, hd, ht, hm]
  · simp [submitStep, hpw, hc, he, hd]

theorem claim3_witness :
    (submitStep initialState pwBC ⟨none, none, none⟩).errorText = errLoad ∧
    (submitStep initialState pwBC ⟨some cfg1C, none, none⟩).errorText = errLoad ∧
    (submitStep initialState pwBC ⟨some cfg2C, some envIt2C, none⟩).errorText =
      errLoad ∧
    (submitStep initialState pwBC
      ⟨some cfg1C, some ⟨[], [], []⟩, none⟩).errorText = errIncorrect :=
  ⟨(claim3 initialState pwBC ⟨none, none, none⟩ (by decide)).1 rfl,
   (claim3 initialState pwBC ⟨some cfg1C, none, none⟩ (by decide)).2.1 cfg1C rfl rfl,
   (claim3 initialState pwBC ⟨some cfg2C, some envIt2C, none⟩ (by decide)).2.2.1
     cfg2C envIt2C rankJsonC rfl rfl envIt2_decrypt rfl rfl,
   (claim3 initialState pwBC ⟨some cfg1C, some ⟨[], [], []⟩, none⟩ (by decide)).2.2.2
     cfg1C ⟨[], [], []⟩ rfl rfl rfl⟩

/-- C4: key derivation and decryption are deterministic — the embedding of
`decryptData` and of its PBKDF2 step are pure functions of (envelope,
password, config): the JavaScript reads no ambient state and uses no
randomness in these functions, so two runs on the same inputs produce
bit-for-bit identical keys and identical results. -/
theorem claim4 (env : Envelope) (pw salt : List Nat) (cfg : Config)
    (k1 k2 : List Nat) (r1 r2 : Option Json)
    (hk1 : k1 = deriveKey pw salt cfg) (hk2 : k2 = deriveKey pw salt cfg)
    (hr1 : r1 = decryptData env pw cfg) (hr2 : r2 = decryptData env pw cfg) :
    k1 = k2 ∧ r1 = r2 := by
  subst hk1 hk2 hr1 hr2
  exact ⟨rfl, rfl⟩

theorem claim4_witness :
    deriveKey pwBC saltC cfg2C = deriveKey pwBC saltC cfg2C ∧
    decryptData envIt2C pwBC cfg2C = decryptData envIt2C pwBC cfg2C :=
  claim4 envIt2C pwBC saltC cfg2C _ _ _ _ rfl rfl rfl rfl
end SBViewer

namespace SBViewer

/-! ## Trace lemmas for the stored password -/

theorem loadLateStep_storedPassword (s : AppState) (g : LateFetchOutcome) :
    (loadLateStep s g).storedPassword = s.storedPassword := by
  unfold loadLateStep
  cases g.summary with
  | none => rfl
  | some d =>
    dsimp only
    cases g.config with
    | none => rfl
    | some cfg =>
      cases g.envelope with
      | none => rfl
      | some env =>
        cases s.storedPassword with
        | none => rfl
        | some pw =>
          dsimp only
          cases decryptData env pw cfg with
          | none => rfl
          | some v =>
            dsimp only
            cases jsTruthy v <;> rfl

theorem submitStep_stored_cases (s : AppState) (pw : List Nat) (f : FetchOutcome) :
    (submitStep s pw f).storedPassword = s.storedPassword ∨
    ((submitStep s pw f).storedPassword = some pw ∧ submitSucceeds pw f = true) := by
  unfold submitStep
  by_cases hpw : pw = []
  · left
    simp [hpw]
  · rw [if_neg hpw]
    cases hc : f.config with
    | none => left; rfl
    | some cfg =>
      dsimp only
      cases he : f.envelope with
      | none => left; rfl
      | some env =>
        dsimp only
        cases hd : decryptData env pw cfg with
        | none => left; rfl
        | some v =>
          dsimp only
          cases hv : jsTruthy v with
          | false => left; rfl
          | true =>
            right
            refine ⟨?_, by simp [submitSucceeds, hc, he, hd, hv, hpw]⟩
            cases f.metadata <;> rfl

theorem submitSucceeds_spec (pw : List Nat) (f : FetchOutcome)
    (h : submitSucceeds pw f = true) :
    pw ≠ [] ∧ ∃ cfg env v, f.config = some cfg ∧ f.envelope = some env ∧
      decryptData env pw cfg = some v ∧ jsTruthy v = true := by
  unfold submitSucceeds at h
  rw [Bool.and_eq_true] at h
  obtain ⟨hpw, hrest⟩ := h
  refine ⟨fun he => by subst he; simp at hpw, ?_⟩
  cases hc : f.config with
  | none => rw [hc] at hrest; simp at hrest
  | some cfg =>
    cases he : f.envelope with
    | none => rw [hc, he] at hrest; simp at hrest
    | some env =>
      rw [hc, he] at hrest
      dsimp only at hrest
      cases hd : decryptData env pw cfg with
      | none => rw [hd] at hrest; simp at hrest
      | some v =>
        rw [hd] at hrest
        exact ⟨cfg, env, v, rfl, rfl, hd, hrest⟩

theorem run_stored_none : ∀ (evs : List Event) (s : AppState),
    s.storedPassword = none →
    (∀ pw f, Event.submit pw f ∈ evs → submitSucceeds pw f = false) →
    (evs.foldl stepEvent s).storedPassword = none := by
  intro evs
  induction evs with
  | nil => intro s h _; exact h
  | cons e evs ih =>
    intro s hs hall
    simp only [List.foldl_cons]
    apply ih
    · cases e with
      | submit pw f =>
        rcases submitStep_stored_cases s pw f with h | ⟨h1, h2⟩
        · rw [show stepEvent s (.submit pw f) = submitStep s pw f from rfl, h, hs]
        · have := hall pw f (by simp)
          rw [this] at h2
          exact absurd h2 (by simp)
      | loadLate g =>
        rw [show stepEvent s (.loadLate g) = loadLateStep s g from rfl,
          loadLateStep_storedPassword, hs]
    · intro pw f hmem
      exact hall pw f (by simp [hmem])

theorem run_stored_some : ∀ (evs : List Event) (s : AppState) (pw : List Nat),
    (evs.foldl stepEvent s).storedPassword = some pw →
    s.storedPassword = some pw ∨
      ∃ f, Event.submit pw f ∈ evs ∧ submitSucceeds pw f = true := by
  intro evs
  induction evs with
  | nil => intro s pw h; exact Or.inl h
  | cons e evs ih =>
    intro s pw h
    simp only [List.foldl_cons] at h
    rcases ih (stepEvent s e) pw h with h0 | ⟨f, hmem, hsucc⟩
    · cases e with
      | submit pw2 f =>
        rw [show stepEvent s (.submit pw2 f) = submitStep s pw2 f from rfl] at h0
        rcases submitStep_stored_cases s pw2 f with hcase | ⟨h1, h2⟩
        · left
          rw [← hcase]
          exact h0
        · right
          rw [h0] at h1
          have hpp : pw2 = pw := by
            injection h1 with hh
            exact hh.symm
          subst hpp
          exact ⟨f, by simp, h2⟩
      | loadLate g =>
        left
        rwa [show stepEvent s (.loadLate g) = loadLateStep s g from rfl,
          loadLateStep_storedPassword] at h0
    · right
      exact ⟨f, by simp [hmem], hsucc⟩

theorem loadLateStep_cases (s : AppState) (g : LateFetchOutcome) :
    (loadLateStep s g).lateAwakeningCases = s.lateAwakeningCases ∨
    ∃ pw cfg env v, s.storedPassword = some pw ∧ g.config = some cfg ∧
      g.envelope = some env ∧ decryptData env pw cfg = some v ∧
      jsTruthy v = true ∧ (loadLateStep s g).lateAwakeningCases = v := by
  unfold loadLateStep
  cases hsum : g.summary with
  | none => left; rfl
  | some d =>
    dsimp only
    cases hc : g.config with
    | none => left; rfl
    | some cfg =>
      cases he : g.envelope with
      | none => left; rfl
      | some env =>
        cases hsp : s.storedPassword with
        | none => left; rfl
        | some pw =>
          dsimp only
          cases hd : decryptData env pw cfg with
          | none => left; rfl
          | some v =>
            dsimp only
            cases hv : jsTruthy v with
            | false => left; simp
            | true =>
              right
              refine ⟨pw, cfg, env, v, ?_, ?_, ?_, ?_, ?_, ?_⟩ <;>
                first
                | rfl
                | exact hd
                | exact hv

theorem loadLateStep_success (s : AppState) (g : LateFetchOutcome) (d : Json)
    (cfg : Config) (env : Envelope) (pw : List Nat) (v : Json)
    (hsum : g.summary = some d) (hc : g.config = some cfg)
    (he : g.envelope = some env) (hsp : s.storedPassword = some pw)
    (hd : decryptData env pw cfg = some v) (ht : jsTruthy v = true) :
    loadLateStep s g =
      { s with lateAwakeningData := d, lateAwakeningCases := v } := by
  unfold loadLateStep
  rw [hsum]
  simp [hc, he, hsp, hd, ht]
end SBViewer

namespace SBViewer

/-- C7: the stored password is written only after a successful verification.
In every session trace from page load: (i) if no submit event performs a
truthy decrypt, `storedPassword` is still null; (ii) whenever
`storedPassword` holds a password, some submit event with exactly that
password decrypted its fetched envelope to a truthy value; (iii) whenever a
late-awakening load assigns the second dataset, it decrypted it with
precisely the stored password. -/
theorem claim7 (evs : List Event) :
    ((∀ pw f, Event.submit pw f ∈ evs → submitSucceeds pw f = false) →
      (run evs).storedPassword = none) ∧
    (∀ pw, (run evs).storedPassword = some pw →
      ∃ f cfg env v, Event.submit pw f ∈ evs ∧ f.config = some cfg ∧
        f.envelope = some env ∧ decryptData env pw cfg = some v ∧
        jsTruthy v = true) ∧
    (∀ s g, (loadLateStep s g).lateAwakeningCases ≠ s.lateAwakeningCases →
      ∃ pw cfg env v, s.storedPassword = some pw ∧ g.config = some cfg ∧
        g.envelope = some env ∧ decryptData env pw cfg = some v ∧
        jsTruthy v = true ∧ (loadLateStep s g).lateAwakeningCases = v) := by
  refine ⟨fun hall => run_stored_none evs initialState rfl hall,
    fun pw h => ?_, fun s g hne => ?_⟩
  · rcases run_stored_some evs initialState pw h with h0 | ⟨f, hmem, hsucc⟩
    · simp [initialState] at h0
    · obtain ⟨hpw, cfg, env, v, hc, he, hd, ht⟩ := submitSucceeds_spec pw f hsucc
      exact ⟨f, cfg, env, v, hmem, hc, he, hd, ht⟩
  · rcases loadLateStep_cases s g with h0 | hex
    · exact absurd h0 hne
    · exact hex

theorem claim7_witness :
    (run [Event.submit pwBC ⟨none, none, none⟩]).storedPassword = none ∧
    (∃ f cfg env v,
      Event.submit pwBC f ∈
        [Event.submit pwBC ⟨some cfg2C, some envIt2C, some (Json.arr [])⟩] ∧
      f.config = some cfg ∧ f.envelope = some env ∧
      decryptData env pwBC cfg = some v ∧ jsTruthy v = true) ∧
    (∃ pw cfg env v,
      ({ initialState with storedPassword := some pwBC } : AppState).storedPassword =
        some pw ∧
      (⟨some (Json.arr []), some cfg2C, some envIt2C⟩ : LateFetchOutcome).config =
        some cfg ∧
      (⟨some (Json.arr []), some cfg2C, some envIt2C⟩ : LateFetchOutcome).envelope =
        some env ∧
      decryptData env pw cfg = some v ∧ jsTruthy v = true ∧
      (loadLateStep { initialState with storedPassword := some pwBC }
        ⟨some (Json.arr []), some cfg2C, some envIt2C⟩).lateAwakeningCases = v) := by
  refine ⟨?_, ?_, ?_⟩
  · exact (claim7 [Event.submit pwBC ⟨none, none, none⟩]).1
      (by
        intro pw f hmem
        simp only [List.mem_singleton] at hmem
        obtain ⟨h1, h2⟩ := Event.submit.inj hmem
        subst h1
        subst h2
        rfl)
  · apply (claim7 [Event.submit pwBC ⟨some cfg2C, some envIt2C, some (Json.arr [])⟩]).2.1
    show (submitStep initialState pwBC
      ⟨some cfg2C, some envIt2C, some (Json.arr [])⟩).storedPassword = some pwBC
    rw [submitStep_success initialState pwBC _ cfg2C envIt2C rankJsonC (Json.arr [])
      (by decide) rfl rfl envIt2_decrypt rfl rfl]
  · apply (claim7 []).2.2
    rw [loadLateStep_success { initialState with storedPassword := some pwBC }
      ⟨some (Json.arr []), some cfg2C, some envIt2C⟩ (Json.arr []) cfg2C envIt2C
      pwBC rankJsonC rfl rfl rfl rfl envIt2_decrypt rfl]
    simp [initialState, rankJsonC]
end SBViewer

namespace SBViewer

/-- C8: `submitPassword` is straight-line await code: in its operation trace,
a decrypt operation only ever appears after both the config fetch and the
envelope fetch have completed, and its arguments are exactly the two fetched
values and the submitted password — never a partially fetched config or
envelope. -/
theorem claim8 (pw : List Nat) (f : FetchOutcome) (i : Nat) (env : Envelope)
    (pw2 : List Nat) (cfg : Config)
    (h : (submitOps pw f).get? i = some (.opDecrypt env pw2 cfg)) :
    pw2 = pw ∧
    (∃ j, j < i ∧ (submitOps pw f).get? j = some (.opFetchConfig (some cfg))) ∧
    (∃ k, k < i ∧ (submitOps pw f).get? k = some (.opFetchEnvelope (some env))) := by
  by_cases hpw : pw = []
  · rw [submitOps, if_pos hpw] at h
    rcases i with _ | i <;> simp at h
  · rw [submitOps, if_neg hpw] at h
    rw [submitOps, if_neg hpw]
    cases hc : f.config with
    | none =>
      simp only [hc] at h
      rcases i with _ | _ | i <;> simp at h
    | some cfg0 =>
      simp only [hc] at h ⊢
      cases he : f.envelope with
      | none =>
        simp only [he] at h
        rcases i with _ | _ | _ | i <;> simp at h
      | some env0 =>
        simp only [he] at h ⊢
        rcases i with _ | _ | _ | i
        · simp at h
        · simp at h
        · simp only [List.get?_cons_succ, List.get?_cons_zero, Option.some.injEq,
            Op.opDecrypt.injEq] at h
          obtain ⟨h1, h2, h3⟩ := h
          subst h1
          subst h3
          exact ⟨h2.symm, ⟨0, by omega, by simp⟩, ⟨1, by omega, by simp⟩⟩
        · exfalso
          cases hd : decryptData env0 pw cfg0 with
          | none =>
            simp only [hd] at h
            rcases i with _ | i <;> simp at h
          | some v =>
            simp only [hd] at h
            cases hv : jsTruthy v with
            | false =>
              simp only [hv] at h
              rcases i with _ | i <;> simp at h
            | true =>
              simp only [hv] at h
              cases hm : f.metadata with
              | none =>
                simp only [hm] at h
                rcases i with _ | _ | i <;> simp at h
              | some m =>
                simp only [hm] at h
                rcases i with _ | _ | i <;> simp at h

theorem claim8_witness :
    (submitOps pwBC ⟨some cfg1C, some ⟨[], [], []⟩, none⟩).get? 2 =
      some (Op.opDecrypt ⟨[], [], []⟩ pwBC cfg1C) ∧
    (pwBC = pwBC ∧
      (∃ j, j < 2 ∧ (submitOps pwBC ⟨some cfg1C, some ⟨[], [], []⟩, none⟩).get? j =
        some (Op.opFetchConfig (some cfg1C))) ∧
      (∃ k, k < 2 ∧ (submitOps pwBC ⟨some cfg1C, some ⟨[], [], []⟩, none⟩).get? k =
        some (Op.opFetchEnvelope (some ⟨[], [], []⟩)))) :=
  ⟨rfl, claim8 pwBC ⟨some cfg1C, some ⟨[], [], []⟩, none⟩ 2 ⟨[], [], []⟩ pwBC cfg1C rfl⟩
end SBViewer

namespace SBViewer

/-- C10: `renderMechanismChain` returns a non-empty chain template exactly
when the case's mechanism label matches one of four patterns — it contains
both 'External Event' and 'Contextual Discovery', or contains 'Author Series
Continuation' without containing 'Possible', or contains 'Author
Self-Promotion', or equals exactly 'New User Discovery' — and returns the
empty string for every other label, including a missing label. -/
theorem claim10 (c : CaseRec) :
    (renderMechanismChain c ≠ "" ↔
      (strIncludes (c.mechanism.getD "") "External Event" = true ∧
       strIncludes (c.mechanism.getD "") "Contextual Discovery" = true) ∨
      (strIncludes (c.mechanism.getD "") "Author Series Continuation" = true ∧
       strIncludes (c.mechanism.getD "") "Possible" = false) ∨
      strIncludes (c.mechanism.getD "") "Author Self-Promotion" = true ∨
      c.mechanism.getD "" = "New User Discovery") ∧
    (c.mechanism = none → renderMechanismChain c = "") := by
  constructor
  · simp only [renderMechanismChain]
    split_ifs with h1 h2 h3 h4
    · exact iff_of_true (by decide) (Or.inl (Eq.mp (Bool.and_eq_true _ _) h1))
    · refine iff_of_true (by decide) (Or.inr (Or.inl ?_))
      obtain ⟨ha, hb⟩ := Eq.mp (Bool.and_eq_true _ _) h2
      exact ⟨ha, by simpa using hb⟩
    · exact iff_of_true (by decide) (Or.inr (Or.inr (Or.inl h3)))
    · exact iff_of_true (by decide) (Or.inr (Or.inr (Or.inr (eq_of_beq h4))))
    · refine iff_of_false (by simp) ?_
      rintro (⟨ha, hb⟩ | ⟨ha, hb⟩ | ha | ha)
      · exact h1 (Eq.mpr (Bool.and_eq_true _ _) ⟨ha, hb⟩)
      · exact h2 (Eq.mpr (Bool.and_eq_true _ _) ⟨ha, by simpa using hb⟩)
      · exact h3 ha
      · exact h4 (by simp [ha])
  · intro h
    obtain ⟨m⟩ := c
    simp only at h
    subst h
    rfl

theorem claim10_witness :
    renderMechanismChain ⟨none⟩ = "" ∧
    renderMechanismChain ⟨some "New User Discovery"⟩ ≠ "" :=
  ⟨(claim10 ⟨none⟩).2 rfl,
   (claim10 ⟨some "New User Discovery"⟩).1.mpr (Or.inr (Or.inr (Or.inr rfl)))⟩
end SBViewer
